import Mathlib

/-!
Verification development for the Drawpile server-side session broker
(src/shared/server/session.cpp, src/shared/server/client.cpp,
src/shared/record/writer.cpp).

Modelling boundary:
* Message payload encodings, Qt networking, and the on-disk recording codec
  are out of scope (spec section 1); a message is an opaque unit carrying an
  author id, a body tag and a byte length.
* The logging subsystem (serverlog.h, not in the sources) is external: calls
  to `log(...)` and the echo of log entries to clients are not modelled;
  they carry no protocol state.
* `SessionHistory` and the protocol message classes are not in the sources;
  the definitions below marked "Modelled from the spec" reconstruct exactly
  the interface contract the spec states for them.
-/

namespace Drawpile

/-- Session state machine states (session.h `Session::State`). -/
inductive SState
  | Initialization
  | Running
  | Reset
  | Shutdown
deriving DecidableEq, Repr

/-- Auto-reset request status (session.h `AutoResetState`). -/
inductive AutoResetState
  | NotSent
  | Queried
  | Requested
deriving DecidableEq, Repr

/-- Snapshot of the session configuration serialized by
`Session::sendUpdatedSessionProperties` (session.cpp:560-581). -/
structure ConfSnapshot where
  closed : Bool
  authOnly : Bool
  persistent : Bool
  title : String
  maxUserCount : Int
  resetThreshold : Nat
  resetThresholdBase : Nat
  preserveChat : Bool
  nsfm : Bool
  deputies : Bool
  hasPassword : Bool
  hasOpword : Bool
deriving DecidableEq, Repr

/-- Server-to-client replies (protocol::ServerReply payloads used by the
session code; control.h is not in the sources, so only the reply kinds and
the fields the session code fills in are modelled). -/
inductive ServerReply
  /-- RESET with state="reset" ("Session reset!", session.cpp:128-131). -/
  | resetDone
  /-- RESET with state="init" ("Prepared to receive session data"). -/
  | resetInit
  /-- CATCHUP with a message count. -/
  | catchup (count : Int)
  /-- SIZELIMITWARNING with current and max size. -/
  | sizeLimitWarning (size : Nat) (maxSize : Nat)
  /-- RESETREQUEST with maxSize and the query flag. -/
  | resetRequest (maxSize : Nat) (query : Bool)
  /-- STATUS with the current history size. -/
  | statusUpdate (size : Nat)
  /-- MESSAGE chat text. -/
  | chatMessage (text : String)
  /-- ALERT text. -/
  | alert (text : String)
  /-- SESSIONCONF carrying the full merged configuration. -/
  | sessionConf (conf : ConfSnapshot)
  /-- SESSIONCONF carrying the ban list (mod/normal variants). -/
  | confBanlist (full : Bool)
  /-- SESSIONCONF carrying the announcement list. -/
  | confAnnouncements (urls : List String)
  /-- SESSIONCONF carrying the muted id list. -/
  | confMuted (ids : List Nat)
deriving DecidableEq, Repr

/-- Bodies of protocol messages handled by the session code. The wire
protocol classes (net/meta.h, net/control.h) are not in the sources; the
constructors carry exactly the data the session code reads and writes.
Opaque command-stream messages (drawing commands etc.) are `other`, which
carries the type-category predicates as data. -/
inductive MsgBody
  /-- MSG_USER_JOIN: auth flag, mod flag, username (avatar not modelled). -/
  | userJoin (auth : Bool) (mod : Bool) (name : String)
  | userLeave
  | softReset
  | disconnect
  | sessionOwner (ids : List Nat)
  | trustedUsers (ids : List Nat)
  /-- MSG_CHAT with its bypass flag. -/
  | chat (bypass : Bool) (text : String)
  | privateChat (target : Nat) (text : String)
  /-- MSG_COMMAND: a server reply (server-generated) . -/
  | command (reply : ServerReply)
  /-- MSG_COMMAND carrying a client-to-server command (opcommands). -/
  | clientCommand (cmd : String) (args : List String)
  /-- MSG_INTERVAL pause marker written by the recorder. -/
  | interval (ms : Nat)
  /-- MSG_MARKER timestamp marker written by the recorder. -/
  | marker (text : String)
  /-- Opaque message: type tag, isCommand and isRecordable predicates. -/
  | other (tag : Nat) (cmd : Bool) (recordable : Bool)
deriving DecidableEq, Repr

/-- A protocol message: context (author) id, body, byte length.
Serialization is out of scope, so the byte length is carried as data. -/
structure Message where
  contextId : Nat
  body : MsgBody
  mlen : Nat
deriving DecidableEq, Repr

namespace Message

/-- `Message::length()`. -/
def length (m : Message) : Nat := m.mlen

/-- `Message::setContextId(id)`. -/
def setContextId (m : Message) (id : Nat) : Message := { m with contextId := id }

/-- Modelled from the spec: `isCommand()` is true exactly for
command-stream (drawing) messages; the control and meta messages built by
the server code are not command-stream messages. -/
def isCommand (m : Message) : Bool :=
  match m.body with
  | .other _ cmd _ => cmd
  | _ => false

/-- Modelled from the spec: `isRecordable()` is false for transient control
messages (server replies, disconnect notices) and true for meta and
command-stream messages. -/
def isRecordable (m : Message) : Bool :=
  match m.body with
  | .command _ => false
  | .clientCommand _ _ => false
  | .disconnect => false
  | .other _ _ recordable => recordable
  | _ => true

/-- Helper for server-generated messages (context id 0, opaque length 0:
wire lengths of server messages are not modelled). -/
def server (r : ServerReply) : Message := ⟨0, .command r, 0⟩

end Message

/-- Sum of the byte lengths of a list of messages. -/
def msgListSize (ms : List Message) : Nat := (ms.map Message.length).sum

/-- Modelled from the spec: the HistoryLog (`SessionHistory`, not in the
sources). A sequence of messages addressed by monotonically increasing
positions; `firstIndex`/`lastIndex` bound the retained window (the message
list holds positions `firstIndex..lastIndex`). Side tables: operator and
trust name sets, the opword and password hashes, session flags, and the
id-reservation queue. -/
structure History where
  messages : List Message
  firstIndex : Int
  lastIndex : Int
  sizeInBytes : Nat
  sizeLimit : Nat
  /-- Session-specific auto-reset threshold override (setAutoResetThreshold). -/
  autoResetThreshold : Nat
  /-- Admin-set absolute auto-reset threshold. -/
  autoResetThresholdBase : Nat
  title : String
  maxUsers : Int
  flagPersistent : Bool
  flagPreserveChat : Bool
  flagNsfm : Bool
  flagDeputies : Bool
  passwordHash : String
  opwordHash : String
  /-- Names of authenticated users remembered as operators. -/
  authOps : List String
  /-- Names of authenticated users remembered as trusted. -/
  authTrusted : List String
  /-- Id-reservation queue: name associations (idQueue). -/
  idForName : List (Nat × String)
  /-- Recently freed ids, not to be reused right away. -/
  reservedIds : List Nat
deriving DecidableEq, Repr

namespace History

/-- Modelled from the spec: append fails ("out of space") when the
cumulative retained byte size would exceed the configured size limit;
otherwise the message is appended at the next position. -/
def addMessage (h : History) (m : Message) : Option History :=
  if h.sizeLimit > 0 ∧ h.sizeInBytes + m.length > h.sizeLimit then none
  else some { h with
    messages := h.messages ++ [m]
    lastIndex := h.lastIndex + 1
    sizeInBytes := h.sizeInBytes + m.length }

/-- Modelled from the spec: the log refuses appends once the size limit has
been reached. -/
def isOutOfSpace (h : History) : Bool :=
  h.sizeLimit > 0 ∧ h.sizeInBytes ≥ h.sizeLimit

/-- Modelled from the spec: `reset(buffer)` atomically replaces all prior
history with the buffer; positions are never reused, so the new window
starts right after the old `lastIndex`. Fails when the buffer alone
exceeds the size limit. -/
def reset (h : History) (buffer : List Message) : Option History :=
  if h.sizeLimit > 0 ∧ msgListSize buffer > h.sizeLimit then none
  else some { h with
    messages := buffer
    sizeInBytes := msgListSize buffer
    firstIndex := h.lastIndex + 1
    lastIndex := h.lastIndex + buffer.length }

/-- Modelled from the spec: `getBatch(after)` returns all retained messages
at positions strictly greater than `after`, together with the new cursor
position `lastIndex`. -/
def getBatch (h : History) (after : Int) : List Message × Int :=
  if after ≥ h.lastIndex then ([], h.lastIndex)
  else (h.messages.drop (after - h.firstIndex + 1).toNat, h.lastIndex)

/-- Modelled from the spec: the effective auto-reset threshold is the
minimum of the admin-set absolute threshold and the session-specific
override. -/
def effectiveAutoResetThreshold (h : History) : Nat :=
  min h.autoResetThresholdBase h.autoResetThreshold

/-- Modelled from the spec: there is a self-promotion bypass when
authenticated users are remembered as operators. -/
def isAuthenticatedOperators (h : History) : Bool :=
  ¬ h.authOps.isEmpty

/-- Modelled from the spec: is this username remembered as an operator? -/
def isOperatorName (h : History) (name : String) : Bool :=
  h.authOps.contains name

/-- Modelled from the spec: is this username remembered as trusted? -/
def isTrustedName (h : History) (name : String) : Bool :=
  h.authTrusted.contains name

/-- Modelled from the spec: remember/forget an authenticated operator. -/
def setAuthenticatedOperator (h : History) (name : String) (op : Bool) : History :=
  if op then
    if h.authOps.contains name then h else { h with authOps := h.authOps ++ [name] }
  else
    { h with authOps := h.authOps.filter (fun n => n ≠ name) }

/-- Modelled from the spec: remember/forget an authenticated trusted user. -/
def setAuthenticatedTrust (h : History) (name : String) (trusted : Bool) : History :=
  if trusted then
    if h.authTrusted.contains name then h
    else { h with authTrusted := h.authTrusted ++ [name] }
  else
    { h with authTrusted := h.authTrusted.filter (fun n => n ≠ name) }

/-- Modelled from the spec: id queue bookkeeping on join. -/
def setIdForName (h : History) (id : Nat) (name : String) : History :=
  { h with idForName := (id, name) :: h.idForName.filter (fun p => p.1 ≠ id) }

/-- Modelled from the spec: a freed id is reserved so it is not reused
right away. -/
def reserveId (h : History) (id : Nat) : History :=
  { h with reservedIds := h.reservedIds ++ [id] }

/-- Modelled from the spec: releasing cached batches below the watermark is
a memory-management hint; it does not change the logical message window
(the in-memory history retains the full window for late joiners). -/
def cleanupBatches (h : History) (_before : Int) : History := h

end History

/-- One connected user (ClientHandle; client.cpp `Client::Private`).
`sent` is the transcript of everything enqueued on the outbound message
queue; `uploading` abstracts `MessageQueue::isUploading()`. -/
structure Client where
  id : Nat
  username : String
  /-- Raw `d->isOperator` flag (`isOperator()` also includes moderators). -/
  opFlag : Bool
  isModerator : Bool
  isTrusted : Bool
  isAuthenticated : Bool
  isMuted : Bool
  /-- Whether the peer address is loopback (used by sendUpdatedBanlist). -/
  peerLoopback : Bool
  historyPosition : Int
  holdqueue : List Message
  sent : List Message
  uploading : Bool
deriving DecidableEq, Repr

namespace Client

/-- client.cpp:207-210: a moderator always has operator status. -/
def isOperator (c : Client) : Bool := c.opFlag || c.isModerator

/-- client.cpp:86-94 `Client::joinMessage` (avatar not modelled). -/
def joinMessage (c : Client) : Message :=
  ⟨c.id, .userJoin c.isAuthenticated c.isModerator c.username, 0⟩

/-- Enqueue one message on the outbound queue (msgqueue->send(msg)). -/
def pushSent (c : Client) (m : Message) : Client := { c with sent := c.sent ++ [m] }

/-- Enqueue a batch on the outbound queue (msgqueue->send(batch)). -/
def pushSentBatch (c : Client) (ms : List Message) : Client :=
  { c with sent := c.sent ++ ms }

end Client

/-- Recording writer (record/writer.cpp). The codec byte layout is out of
scope; `output` is the sequence of messages passed to `writeMessage`. -/
structure Writer where
  minInterval : Nat
  timestampInterval : Nat
  /-- m_interval: start of the current pause measurement. -/
  intervalStart : Nat
  lastTimestamp : Nat
  output : List Message
deriving DecidableEq, Repr

namespace Writer

/-- A freshly opened writer (intervals default to 0, writer.cpp:54-59). -/
def fresh : Writer := ⟨0, 0, 0, 0, []⟩

/-- writer.cpp:136-184 `Writer::writeMessage` (the encoding is out of
scope; the message is recorded in order). -/
def writeMessage (w : Writer) (m : Message) : Writer :=
  { w with output := w.output ++ [m] }

/-- writer.cpp:206-229 `Writer::recordMessage`: only recordable messages
are written; a pause marker and a timestamp marker may precede the
message when the corresponding intervals are configured. `now` is the
current wall-clock reading in milliseconds. -/
def recordMessage (w : Writer) (now : Nat) (m : Message) : Writer :=
  if m.isRecordable then
    let w :=
      if w.minInterval > 0 then
        let interval := now - w.intervalStart
        let w :=
          if interval ≥ w.minInterval then
            w.writeMessage ⟨0, .interval (min 65535 interval), 0⟩
          else w
        { w with intervalStart := now }
      else w
    let w :=
      if w.timestampInterval > 0 ∧ now - w.lastTimestamp ≥ w.timestampInterval then
        { (w.writeMessage ⟨0, .marker (toString now), 0⟩) with lastTimestamp := now }
      else w
    w.writeMessage m
  else w

end Writer

/-- The Session (session.h / session.cpp). Server configuration values the
session reads are carried as `cfg...` fields; wall-clock readings that
only the recorder and the periodic status update consult are carried as
environment fields (`nowMs`, `lastStatusElapsedMs`). -/
structure Session where
  state : SState
  /-- Id of the client currently initializing/resetting; -1 if none. -/
  initUser : Int
  clients : List Client
  resetstream : List Message
  resetstreamsize : Nat
  history : History
  recorder : Option Writer
  recordingFile : String
  closed : Bool
  authOnly : Bool
  autoResetRequestStatus : AutoResetState
  /-- Announcement listing URLs (m_publicListings; the HTTP client is out
  of scope). -/
  publicListings : List String
  /-- ServerConfig WelcomeMessage. -/
  cfgWelcomeMessage : String
  /-- ServerConfig EnablePersistence. -/
  cfgEnablePersistence : Bool
  /-- Reading of m_lastStatusUpdate.elapsed() in milliseconds. -/
  lastStatusElapsedMs : Nat
  /-- Current wall clock in milliseconds (recorder timestamps). -/
  nowMs : Nat
deriving DecidableEq, Repr

namespace Session

/-- session.cpp:277-284 `Session::getClientById` (first match). -/
def getClientById (s : Session) (id : Nat) : Option Client :=
  s.clients.find? (fun c => c.id == id)

/-- `getClientById` as called with a (possibly negative) int id such as
`m_initUser`. -/
def getClientByIdInt (s : Session) (id : Int) : Option Client :=
  s.clients.find? (fun c => (c.id : Int) == id)

/-- Update the first client with the given id (mirrors mutating the object
returned by `getClientById`). -/
def updateFirstClient : List Client → Nat → (Client → Client) → List Client
  | [], _, _ => []
  | c :: rest, id, f =>
    if c.id = id then f c :: rest else c :: updateFirstClient rest id f

/-- Send a direct (non-history) message to the client with the given id. -/
def sendDirectTo (s : Session) (id : Nat) (m : Message) : Session :=
  { s with clients := updateFirstClient s.clients id (fun c => c.pushSent m) }

/-- session.cpp:876-881 `Session::directToAll`. -/
def directToAll (s : Session) (m : Message) : Session :=
  { s with clients := s.clients.map (fun c => c.pushSent m) }

/-- session.cpp:883-895 `Session::messageAll`: broadcast a MESSAGE or
ALERT server reply to everyone (empty texts are dropped). -/
def messageAll (s : Session) (text : String) (alert : Bool) : Session :=
  if text = "" then s
  else s.directToAll (.server (if alert then .alert text else .chatMessage text))

/-- Set the raw operator flag of every client with the given id
(`c->setOperator(op)` on the object(s) matching the id). -/
def setRawOperatorOf (s : Session) (id : Nat) (op : Bool) : Session :=
  { s with clients := s.clients.map (fun c => if c.id = id then { c with opFlag := op } else c) }

/-- Set the trusted flag of every client with the given id. -/
def setTrustedOf (s : Session) (id : Nat) (trusted : Bool) : Session :=
  { s with clients := s.clients.map (fun c => if c.id = id then { c with isTrusted := trusted } else c) }

/-- The configuration snapshot serialized by sendUpdatedSessionProperties
(session.cpp:560-577). -/
def confSnapshot (s : Session) : ConfSnapshot :=
  { closed := s.closed
    authOnly := s.authOnly
    persistent := s.history.flagPersistent
    title := s.history.title
    maxUserCount := s.history.maxUsers
    resetThreshold := s.history.autoResetThreshold
    resetThresholdBase := s.history.autoResetThresholdBase
    preserveChat := s.history.flagPreserveChat
    nsfm := s.history.flagNsfm
    deputies := s.history.flagDeputies
    hasPassword := s.history.passwordHash ≠ ""
    hasOpword := s.history.opwordHash ≠ "" }

/-- session.cpp:660-670: during Initialization, the init user originated
the streamed history, so their cursor is advanced past the appended
message and only non-command messages are echoed to them directly. -/
def initEcho (s : Session) (msg : Message) : Session :=
  if s.state = SState.Initialization then
    match s.getClientByIdInt s.initUser with
    | some origin =>
      let setPos := fun (c : Client) => { c with historyPosition := s.history.lastIndex }
      let s : Session := { s with clients := updateFirstClient s.clients origin.id setPos }
      if ¬ msg.isCommand then s.sendDirectTo origin.id msg else s
    | none => s
  else s

/-- session.cpp:677-709: when the history size crosses the effective
auto-reset threshold and no request was sent yet, broadcast the size-limit
warning to everyone, send the reset query to the operators, and move the
request status to Queried. -/
def autoResetCheck (s : Session) : Session :=
  if s.history.effectiveAutoResetThreshold > 0 ∧
      s.autoResetRequestStatus = AutoResetState.NotSent ∧
      s.history.sizeInBytes > s.history.effectiveAutoResetThreshold then
    let s := s.directToAll
      (.server (.sizeLimitWarning s.history.sizeInBytes s.history.effectiveAutoResetThreshold))
    let reqMsg : Message := .server (.resetRequest s.history.sizeLimit true)
    let queryOps := s.clients.map (fun c => if c.isOperator then c.pushSent reqMsg else c)
    let s := { s with clients := queryOps }
    { s with autoResetRequestStatus := AutoResetState.Queried }
  else s

/-- session.cpp:711-718: the periodic (at most every 10 s) history size
status broadcast. -/
def statusUpdateCheck (s : Session) : Session :=
  if s.lastStatusElapsedMs > 10 * 1000 then
    let s := s.directToAll (.server (.statusUpdate s.history.sizeInBytes))
    { s with lastStatusElapsedMs := 0 }
  else s

/-- session.cpp:646-719 `Session::addToHistory`. No-op once Shutdown. On a
rejected append, broadcast the two warnings naming the offending author.
On success: in Initialization advance the init user's cursor past the
message and echo non-command messages to them; mirror to the recorder;
evaluate the auto-reset threshold; periodically broadcast a size status
update. -/
def addToHistory (s : Session) (msg : Message) : Session :=
  if s.state = SState.Shutdown then s
  else
    match s.history.addMessage msg with
    | none =>
      let shame := s.getClientById msg.contextId
      let s := s.messageAll "History size limit reached!" false
      s.messageAll
        ((match shame with
          | some c => c.username
          | none => "user #" ++ toString msg.contextId) ++
          " broke the camel\x27s back. Session must be reset to continue drawing.")
        false
    | some h1 =>
      let s := { s with history := h1 }
      let s := s.initEcho msg
      let s := { s with recorder := Option.map (fun r => Writer.recordMessage r s.nowMs msg) s.recorder }
      let s := s.autoResetCheck
      s.statusUpdateCheck

/-- session.cpp:560-581 `Session::sendUpdatedSessionProperties`: the merged
configuration is appended to history as one SESSIONCONF command. -/
def sendUpdatedSessionProperties (s : Session) : Session :=
  s.addToHistory (.server (.sessionConf s.confSnapshot))

/-- session.cpp:313-319 `Session::setClosed`. -/
def setClosed (s : Session) (closed : Bool) : Session :=
  if s.closed ≠ closed then
    { s with closed := closed }.sendUpdatedSessionProperties
  else s

/-- session.cpp:583-607 `Session::sendUpdatedBanlist`: moderators and local
users get the full variant, everyone else the redacted one. -/
def sendUpdatedBanlist (s : Session) : Session :=
  let push := fun (c : Client) => c.pushSent (.server (.confBanlist (c.isModerator || c.peerLoopback)))
  { s with clients := s.clients.map push }

/-- session.cpp:609-627 `Session::sendUpdatedAnnouncementList`. -/
def sendUpdatedAnnouncementList (s : Session) : Session :=
  s.directToAll (.server (.confAnnouncements s.publicListings))

/-- session.cpp:629-644 `Session::sendUpdatedMuteList`. -/
def sendUpdatedMuteList (s : Session) : Session :=
  s.directToAll (.server (.confMuted ((s.clients.filter (fun c => c.isMuted)).map (fun c => c.id))))

/-- session.cpp:1159-1166 `Session::historyCacheCleanup`. -/
def historyCacheCleanup (s : Session) : Session :=
  let minIdx := s.clients.foldl (fun acc c => min c.historyPosition acc) s.history.lastIndex
  { s with history := s.history.cleanupBatches minIdx }

/-- client.cpp:480-488 `Client::enqueueHeldCommands` for the client with
the given id: a no-op while hold-locked (session state not Running),
otherwise every held message is appended to history and the queue is
cleared. -/
def enqueueHeldFor (s : Session) (cid : Nat) : Session :=
  if s.state ≠ SState.Running then s
  else
    match s.getClientById cid with
    | none => s
    | some c =>
      let s := c.holdqueue.foldl addToHistory s
      { s with clients := updateFirstClient s.clients cid (fun c2 => { c2 with holdqueue := [] }) }

/-- session.cpp:917-951 `Session::restartRecording`: open a fresh writer
and replay the current history into it (getBatch from position 0 returns
the whole retained window, so the replay loop runs once). Recorder I/O
failures are out of scope; the open always succeeds in the model. -/
def restartRecording (s : Session) : Session :=
  let w := Writer.fresh
  let batch := (s.history.getBatch 0).1
  let w := batch.foldl (fun w m => w.recordMessage s.nowMs m) w
  { s with recorder := some w }

/-- session.cpp:106-118: building the reset snapshot buffer — a join
message for every connected client is prepended to the uploaded stream
(so the joins end up in reverse client order at its front), preceded by a
TrustedUsers message when any client is trusted and a SessionOwner message
listing the current operators. -/
def buildResetBuffer (s : Session) : List Message :=
  let joinAndLists := s.clients.foldl
    (fun (acc : List Message × List Nat × List Nat) c =>
      (c.joinMessage :: acc.1,
       acc.2.1 ++ (if c.isOperator then [c.id] else []),
       acc.2.2 ++ (if c.isTrusted then [c.id] else [])))
    (s.resetstream, [], [])
  let stream1 :=
    if joinAndLists.2.2 ≠ [] then
      (⟨0, .trustedUsers joinAndLists.2.2, 0⟩ : Message) :: joinAndLists.1
    else joinAndLists.1
  (⟨0, .sessionOwner joinAndLists.2.1, 0⟩ : Message) :: stream1

/-- session.cpp:102-146: committing an uploaded reset buffer — on success
the history is atomically replaced, the reset notice and the catch-up
count are broadcast, the auto-reset status is cleared and the new
configuration is rebroadcast; either way the reset stream is cleared.
Returns the session and the success flag. -/
def resetCommit (s0 : Session) : Session × Bool :=
  let buffer := s0.buildResetBuffer
  let p : Session × Bool :=
    match s0.history.reset buffer with
    | none => (s0.messageAll "Session reset failed!" true, false)
    | some h1 =>
      let s2 : Session := { s0 with history := h1 }
      let s2 := s2.directToAll (.server .resetDone)
      let s2 := s2.directToAll
        (.server (.catchup (s2.history.lastIndex - s2.history.firstIndex)))
      let s2 : Session := { s2 with autoResetRequestStatus := AutoResetState.NotSent }
      (s2.sendUpdatedSessionProperties, true)
  ({ p.1 with resetstream := [], resetstreamsize := 0 }, p.2)

/-- session.cpp:95-152: the Running branch of `switchState` (before the
final `m_state = newstate` assignment, which the caller performs): clear
the init user, commit the reset buffer when leaving Reset with one,
restart the recording, then ask every client to flush its hold queue.
Note that the state is still the old one while the flushes run. -/
def switchToRunningBody (s : Session) : Session :=
  let s0 : Session := { s with initUser := -1 }
  let p : Session × Bool :=
    if s.state = SState.Reset ∧ s.resetstream ≠ [] then s0.resetCommit
    else (s0, true)
  let s3 := if p.2 ∧ p.1.recordingFile ≠ "" then p.1.restartRecording else p.1
  (s3.clients.map (fun c => c.id)).foldl enqueueHeldFor s3

/-- session.cpp:90-164 `Session::switchState`. Identity on the illegal
transitions the code treats as fatal programming errors. The code assigns
`m_state = newstate` only at the very end, after the hold queues have been
asked to flush. -/
def switchState (s : Session) (newstate : SState) : Session :=
  if newstate = SState.Running then
    if s.state ≠ SState.Initialization ∧ s.state ≠ SState.Reset then s
    else { s.switchToRunningBody with state := newstate }
  else if newstate = SState.Reset then
    if s.state ≠ SState.Running then s
    else
      let s1 : Session := { s with resetstream := [], resetstreamsize := 0 }
      let s2 := s1.messageAll "Preparing for session reset!" true
      { s2 with state := newstate }
  else if newstate = SState.Shutdown then
    { s with state := newstate }
  else s

/-- session.cpp:268-275 `Session::abortReset`. -/
def abortReset (s : Session) : Session :=
  let s := { s with initUser := -1, resetstream := [], resetstreamsize := 0 }
  let s := s.switchState SState.Running
  s.messageAll "Session reset cancelled." true

/-- One iteration of the client loop of `Session::changeOpStatus`
(session.cpp:474-498): `c` is the client as it was when the loop reached
it (only its own flag is read, and the loop itself only changes that
client's flag). The accumulator carries the evolving session, the
collected operator id list, and the pending resetter kick. -/
def opStep (targetId : Nat) (op : Bool) (changedBy : String)
    (acc : Session × List Nat × Option Nat) (c : Client) :
    Session × List Nat × Option Nat :=
  let s := acc.1
  if c.id = targetId ∧ c.isOperator ≠ op then
    let kick :=
      if ¬ op ∧ (c.id : Int) = s.initUser ∧ s.state = SState.Reset then some c.id
      else acc.2.2
    let s := s.setRawOperatorOf c.id op
    let text :=
      if op then "Made operator by " ++ changedBy
      else "Operator status revoked by " ++ changedBy
    let s := s.messageAll (c.username ++ " " ++ text) false
    let s :=
      if c.isAuthenticated ∧ ¬ c.isModerator then
        { s with history := s.history.setAuthenticatedOperator c.username op }
      else s
    (s, acc.2.1 ++ (if op || c.isModerator then [c.id] else []), kick)
  else
    (s, acc.2.1 ++ (if c.isOperator then [c.id] else []), acc.2.2)

/-- The client loop of session.cpp:469-498 `Session::changeOpStatus`,
before the SessionOwner append and the resetter kick. -/
def changeOpStatusCore (s : Session) (targetId : Nat) (op : Bool) (changedBy : String) :
    Session × List Nat × Option Nat :=
  s.clients.foldl (opStep targetId op changedBy) (s, [], none)

/-- session.cpp:897-915 `Session::ensureOperatorExists`: when no
authorization bypass is configured and no connected client is an operator,
the first (longest-connected) client is promoted. The promotion calls
`changeOpStatus(id, true, "the server")`; with `op = true` the
kick-the-resetter branch cannot trigger, so only the core loop and the
SessionOwner append apply. -/
def ensureOperatorExists (s : Session) : Session :=
  if s.history.opwordHash ≠ "" ∨ s.history.isAuthenticatedOperators then s
  else if ¬ s.clients.any (fun c => c.isOperator) ∧ s.clients ≠ [] then
    match s.clients.head? with
    | some first =>
      let r := s.changeOpStatusCore first.id true "the server"
      r.1.addToHistory ⟨0, .sessionOwner r.2.1, 0⟩
    | none => s
  else s

/-- Remove the first client with the given id (QList::removeOne). -/
def removeFirstById : List Client → Nat → List Client
  | [], _ => []
  | c :: rest, id => if c.id = id then rest else c :: removeFirstById rest id

/-- session.cpp:235-266 `Session::removeUser`: no-op when the client is not
in the session; otherwise remove it, abort a reset the client was driving,
append a UserLeave message, reserve the freed id, re-establish the
operator invariant, reopen the session when it became empty, and release
unneeded history batches. -/
def removeUser (s : Session) (uid : Nat) : Session :=
  if ¬ s.clients.any (fun c => c.id = uid) then s
  else
    let s := { s with clients := removeFirstById s.clients uid }
    let s :=
      if (uid : Int) = s.initUser ∧ s.state = SState.Reset then s.abortReset else s
    let s := s.addToHistory ⟨uid, .userLeave, 0⟩
    let s := { s with history := s.history.reserveId uid }
    let s := s.ensureOperatorExists
    let s := if s.clients = [] then s.setClosed false else s
    s.historyCacheCleanup

/-- client.cpp:460-465 `Client::disconnectError`: the loggedOff signal is
delivered synchronously to `Session::removeUser` (direct Qt connection);
the disconnect notice sent to the leaving client is outside the session
state. -/
def disconnectError (s : Session) (cid : Nat) (_reason : String) : Session :=
  s.removeUser cid

/-- session.cpp:469-504 `Session::changeOpStatus`: run the client loop,
append the resulting SessionOwner list to history, then kick the resetter
if one was de-opped mid-reset. -/
def changeOpStatus (s : Session) (targetId : Nat) (op : Bool) (changedBy : String) : Session :=
  let r := s.changeOpStatusCore targetId op changedBy
  let s := r.1.addToHistory ⟨0, .sessionOwner r.2.1, 0⟩
  match r.2.2 with
  | some k => s.disconnectError k "De-opped while resetting"
  | none => s

/-- One iteration of the client loop of `Session::updateOwnership`
(session.cpp:432-461): the requested op status is
`ids.contains(c->id()) | c->isModerator()`. -/
def ownershipStep (opIds : List Nat) (changedBy : String)
    (acc : Session × List Nat × Option Nat) (c : Client) :
    Session × List Nat × Option Nat :=
  let s := acc.1
  let op := opIds.contains c.id || c.isModerator
  if op ≠ c.isOperator then
    let kick :=
      if ¬ op ∧ (c.id : Int) = s.initUser ∧ s.state = SState.Reset then some c.id
      else acc.2.2
    let s := s.setRawOperatorOf c.id op
    let text :=
      if op then "Made operator by " ++ changedBy
      else "Operator status revoked by " ++ changedBy
    let s := s.messageAll (c.username ++ " " ++ text) false
    let s :=
      if c.isAuthenticated ∧ ¬ c.isModerator then
        { s with history := s.history.setAuthenticatedOperator c.username op }
      else s
    (s, acc.2.1 ++ (if op || c.isModerator then [c.id] else []), kick)
  else
    (s, acc.2.1 ++ (if c.isOperator then [c.id] else []), acc.2.2)

/-- session.cpp:428-467 `Session::updateOwnership`: returns the session and
the true operator id list that the caller stamps back onto the message. -/
def updateOwnership (s : Session) (opIds : List Nat) (changedBy : String) :
    Session × List Nat :=
  let r := s.clients.foldl (ownershipStep opIds changedBy) (s, [], none)
  match r.2.2 with
  | some k => (r.1.disconnectError k "De-opped while resetting", r.2.1)
  | none => (r.1, r.2.1)

/-- One iteration of the client loop of `Session::updateTrustedUsers`
(session.cpp:509-528). -/
def trustStep (trustIds : List Nat) (changedBy : String)
    (acc : Session × List Nat) (c : Client) : Session × List Nat :=
  let s := acc.1
  let trusted := trustIds.contains c.id
  if trusted ≠ c.isTrusted then
    let s := s.setTrustedOf c.id trusted
    let text := if trusted then "Trusted by " ++ changedBy else "Untrusted by " ++ changedBy
    let s := s.messageAll (c.username ++ " " ++ text) false
    let s :=
      if c.isAuthenticated then
        { s with history := s.history.setAuthenticatedTrust c.username trusted }
      else s
    (s, acc.2 ++ (if trusted then [c.id] else []))
  else
    (s, acc.2 ++ (if c.isTrusted then [c.id] else []))

/-- session.cpp:506-531 `Session::updateTrustedUsers`. -/
def updateTrustedUsers (s : Session) (trustIds : List Nat) (changedBy : String) :
    Session × List Nat :=
  s.clients.foldl (trustStep trustIds changedBy) (s, [])

/-- session.cpp:533-558 `Session::changeTrustedStatus`: the targeted
variant of the trust loop followed by the TrustedUsers append. -/
def changeTrustedStatus (s : Session) (targetId : Nat) (trusted : Bool) (changedBy : String) :
    Session :=
  let step := fun (acc : Session × List Nat) (c : Client) =>
    let s := acc.1
    if c.id = targetId ∧ c.isTrusted ≠ trusted then
      let s := s.setTrustedOf c.id trusted
      let text := if trusted then "Trusted by " ++ changedBy else "Untrusted by " ++ changedBy
      let s := s.messageAll (c.username ++ " " ++ text) false
      let s :=
        if c.isAuthenticated then
          { s with history := s.history.setAuthenticatedTrust c.username trusted }
        else s
      (s, acc.2 ++ (if trusted then [c.id] else []))
    else
      (s, acc.2 ++ (if c.isTrusted then [c.id] else []))
  let r := s.clients.foldl step (s, [])
  r.1.addToHistory ⟨0, .trustedUsers r.2, 0⟩

/-- session.cpp:179-233 `Session::joinUser`. Setting the session resets the
catch-up cursor to -1 (client.cpp:144-154). The replay of past log entries
to the new client is not modelled (external logging subsystem). -/
def joinUser (s : Session) (user : Client) (host : Bool) : Session :=
  let user := { user with historyPosition := -1 }
  let s := { s with clients := s.clients ++ [user] }
  let s : Session :=
    if host then { s with initUser := (user.id : Int) }
    else s.sendDirectTo user.id (.server (.catchup (s.history.lastIndex - s.history.firstIndex)))
  let s : Session :=
    if s.cfgWelcomeMessage ≠ "" then
      s.sendDirectTo user.id (.server (.chatMessage s.cfgWelcomeMessage))
    else s
  let s := s.addToHistory user.joinMessage
  let s : Session :=
    if user.isOperator || s.history.isOperatorName user.username then
      s.changeOpStatus user.id true "the server"
    else s
  let s : Session :=
    if s.history.isTrustedName user.username then
      s.changeTrustedStatus user.id true "the server"
    else s
  let s := s.ensureOperatorExists
  let s := s.sendUpdatedAnnouncementList
  let s := s.sendUpdatedBanlist
  let s := s.sendUpdatedMuteList
  { s with history := s.history.setIdForName user.id user.username }

/-- session.cpp:721-739 `Session::addToInitStream`: during Initialization
the message goes straight to history; during Reset it is buffered in the
reset stream, and a resetter that overruns the history size limit is
disconnected with an error. -/
def addToInitStream (s : Session) (msg : Message) : Session :=
  if s.state = SState.Initialization then s.addToHistory msg
  else if s.state = SState.Reset then
    let s := { s with
      resetstreamsize := s.resetstreamsize + msg.length,
      resetstream := s.resetstream ++ [msg] }
    if s.history.sizeLimit > 0 ∧ s.resetstreamsize > s.history.sizeLimit then
      match s.getClientByIdInt s.initUser with
      | some resetter => s.disconnectError resetter.id "History limit exceeded"
      | none => s
    else s
  else s

/-- client.cpp:442-450: where a validated session message is stored — the
init stream for the init user, the sender's hold queue while hold-locked
(client.cpp:473-478: hold-locked means the session state is not Running),
or the history. -/
def storeSessionMessage (s : Session) (cid : Nat) (msg : Message) : Session :=
  if s.initUser = (cid : Int) then s.addToInitStream msg
  else if s.state ≠ SState.Running then
    if ¬ s.history.isOutOfSpace then
      let hold := fun (c : Client) => { c with holdqueue := c.holdqueue ++ [msg] }
      { s with clients := updateFirstClient s.clients cid hold }
    else s
  else s.addToHistory msg

/-- client.cpp:367-451 `Client::handleSessionMessage` for the client with
id `cid`. Server-to-client-only types are dropped; the context id is
rewritten to the sender's id unless the sender is the init user; meta
commands apply their session side effects; everything else is stored.
`handleClientServerCommand` (opcommands.cpp, not in the sources) is
modelled from the spec as an external command processor: the message
itself is never stored, so it is the identity here. -/
def handleSessionMessage (s : Session) (cid : Nat) (msg : Message) : Session :=
  match s.getClientById cid with
  | none => s
  | some cl =>
    match msg.body with
    | .userJoin _ _ _ => s
    | .userLeave => s
    | .softReset => s
    | .disconnect => s
    | _ =>
      let msg := if s.initUser ≠ (cid : Int) then msg.setContextId cid else msg
      match msg.body with
      | .command _ => s
      | .clientCommand _ _ => s
      | .sessionOwner ids0 =>
        if ¬ cl.isOperator then s
        else
          let ids1 := ids0 ++ [cid]
          let r := s.updateOwnership ids1 cl.username
          let msg := { msg with body := .sessionOwner r.2 }
          r.1.storeSessionMessage cid msg
      | .chat bypass _ =>
        if cl.isMuted then s
        else if bypass then s.directToAll msg
        else s.storeSessionMessage cid msg
      | .privateChat target _ =>
        if target > 0 then
          match s.getClientById target with
          | some tc => (s.sendDirectTo cid msg).sendDirectTo tc.id msg
          | none => s
        else s
      | .trustedUsers ids0 =>
        if ¬ cl.isOperator then s
        else
          let r := s.updateTrustedUsers ids0 cl.username
          let msg := { msg with body := .trustedUsers r.2 }
          r.1.storeSessionMessage cid msg
      | _ => s.storeSessionMessage cid msg

/-- session.cpp:741-772 `Session::readyToAutoReset`: answers from unknown
clients, non-operators, or after the first grant are ignored; the first
valid answer gets the confirmed (non-query) reset request and moves the
status to Requested. -/
def readyToAutoReset (s : Session) (ctxId : Nat) : Session :=
  match s.getClientById ctxId with
  | none => s
  | some c =>
    if ¬ c.isOperator then s
    else if s.autoResetRequestStatus ≠ AutoResetState.Queried then s
    else
      let s := s.sendDirectTo c.id (.server (.resetRequest s.history.sizeLimit false))
      { s with autoResetRequestStatus := AutoResetState.Requested }

/-- session.cpp:774-799 `Session::handleInitBegin`: only the init user may
begin; commands that were buffered before the true snapshot start are
cleared. -/
def handleInitBegin (s : Session) (ctxId : Nat) : Session :=
  match s.getClientById ctxId with
  | none => s
  | some _ =>
    if (ctxId : Int) ≠ s.initUser then s
    else if s.resetstreamsize > 0 then { s with resetstream := [], resetstreamsize := 0 }
    else s

/-- session.cpp:801-818 `Session::handleInitComplete`: only the init user
may complete; completion switches the session to Running. -/
def handleInitComplete (s : Session) (ctxId : Nat) : Session :=
  match s.getClientById ctxId with
  | none => s
  | some _ =>
    if (ctxId : Int) ≠ s.initUser then s
    else s.switchState SState.Running

/-- session.cpp:821-837 `Session::handleInitCancel`. -/
def handleInitCancel (s : Session) (ctxId : Nat) : Session :=
  match s.getClientById ctxId with
  | none => s
  | some _ =>
    if (ctxId : Int) ≠ s.initUser then s
    else s.abortReset

/-- session.cpp:839-853 `Session::resetSession`: designate the resetter,
enter Reset and tell the resetter to start streaming the snapshot. -/
def resetSession (s : Session) (resetter : Nat) : Session :=
  let s := { s with initUser := (resetter : Int) }
  let s := s.switchState SState.Reset
  s.sendDirectTo resetter (.server .resetInit)

/-- client.cpp:284-299 `Client::sendNextHistoryBatch` for the client with
id `cid` in session `s`: a no-op while the upload queue is busy or the
session is not Running; otherwise release unneeded batches, fetch the
batch after the client's cursor, advance the cursor to the returned
position and enqueue the batch. -/
def sendNextHistoryBatchFor (s : Session) (cid : Nat) : Session :=
  match s.getClientById cid with
  | none => s
  | some c =>
    if c.uploading || s.state ≠ SState.Running then s
    else
      let s := s.historyCacheCleanup
      let batchAndPos := s.history.getBatch c.historyPosition
      let upd := fun (c2 : Client) =>
        { (c2.pushSentBatch batchAndPos.1) with historyPosition := batchAndPos.2 }
      { s with clients := updateFirstClient s.clients cid upd }

end Session

/-- client.cpp:284-299: the `d->session == nullptr` guard of
`Client::sendNextHistoryBatch` — with no session the call does nothing. -/
def sendNextHistoryBatchOpt : Option Session → Nat → Option Session
  | none, _ => none
  | some s, cid => some (s.sendNextHistoryBatchFor cid)

/-- Modelled from the spec: external password hashing (passwordhash.h is
not in the sources); the hash is opaque, so it is modelled by the password
itself (the hash of the empty password is empty, which is how a password
is cleared). -/
def passwordHashOf (password : String) : String := password

/-- QString::mid(0, n): the first n characters of a string. -/
def qstringMid (t : String) (n : Nat) : String := String.mk (t.data.take n)

/-- The sparse configuration patch accepted by `Session::setSessionConfig`
(session.cpp:339-421); absent keys are `none`. -/
structure SessionConfPatch where
  closed : Option Bool
  authOnly : Option Bool
  persistent : Option Bool
  title : Option String
  maxUserCount : Option Int
  resetThreshold : Option Nat
  password : Option String
  opword : Option String
  preserveChat : Option Bool
  nsfm : Option Bool
  deputies : Option Bool
deriving DecidableEq, Repr

/-- The all-absent patch. -/
def SessionConfPatch.empty : SessionConfPatch :=
  ⟨none, none, none, none, none, none, none, none, none, none, none⟩

namespace Session

/-- session.cpp:343-346: the `closed` block of `setSessionConfig`. -/
def confStageClosed (conf : SessionConfPatch) (sc : Session × List String) :
    Session × List String :=
  match conf.closed with
  | some b => ({ sc.1 with closed := b }, sc.2 ++ [if b then "closed" else "opened"])
  | none => sc

/-- session.cpp:348-356: the `authOnly` block — `authOnly = true` is only
applied when the caller is the server itself or an authenticated client. -/
def confStageAuthOnly (conf : SessionConfPatch) (changedBy : Option Client)
    (sc : Session × List String) : Session × List String :=
  match conf.authOnly with
  | some authOnly =>
    if !authOnly || (match changedBy with | none => true | some c => c.isAuthenticated) then
      ({ sc.1 with authOnly := authOnly },
       sc.2 ++ [if authOnly then "blocked guest logins" else "permitted guest logins"])
    else sc
  | none => sc

/-- session.cpp:360-363: the `persistent` block (gated on the server-wide
persistence setting). -/
def confStagePersistent (conf : SessionConfPatch) (sc : Session × List String) :
    Session × List String :=
  match conf.persistent with
  | some b =>
    ({ sc.1 with history := { sc.1.history with flagPersistent := b && sc.1.cfgEnablePersistence } },
     sc.2 ++ [if b then "made persistent" else "made nonpersistent"])
  | none => sc

/-- session.cpp:365-368: the `title` block — the stored title is the first
100 characters of the supplied string. -/
def confStageTitle (conf : SessionConfPatch) (sc : Session × List String) :
    Session × List String :=
  match conf.title with
  | some t =>
    ({ sc.1 with history := { sc.1.history with title := qstringMid t 100 } },
     sc.2 ++ ["changed title"])
  | none => sc

/-- session.cpp:370-373: the `maxUserCount` block. -/
def confStageMaxUsers (conf : SessionConfPatch) (sc : Session × List String) :
    Session × List String :=
  match conf.maxUserCount with
  | some v =>
    ({ sc.1 with history := { sc.1.history with maxUsers := v } },
     sc.2 ++ ["changed max. user count"])
  | none => sc

/-- session.cpp:375-378: the `resetThreshold` block. -/
def confStageResetThreshold (conf : SessionConfPatch) (sc : Session × List String) :
    Session × List String :=
  match conf.resetThreshold with
  | some v =>
    ({ sc.1 with history := { sc.1.history with autoResetThreshold := v } },
     sc.2 ++ ["changed autoreset threshold"])
  | none => sc

/-- session.cpp:380-383: the `password` block. -/
def confStagePassword (conf : SessionConfPatch) (sc : Session × List String) :
    Session × List String :=
  match conf.password with
  | some p =>
    ({ sc.1 with history := { sc.1.history with passwordHash := passwordHashOf p } },
     sc.2 ++ ["changed password"])
  | none => sc

/-- session.cpp:385-388: the `opword` block. -/
def confStageOpword (conf : SessionConfPatch) (sc : Session × List String) :
    Session × List String :=
  match conf.opword with
  | some p =>
    ({ sc.1 with history := { sc.1.history with opwordHash := passwordHashOf p } },
     sc.2 ++ ["changed opword"])
  | none => sc

/-- session.cpp:393-396: the `preserveChat` block. -/
def confStagePreserveChat (conf : SessionConfPatch) (sc : Session × List String) :
    Session × List String :=
  match conf.preserveChat with
  | some b =>
    ({ sc.1 with history := { sc.1.history with flagPreserveChat := b } },
     sc.2 ++ [if b then "preserve chat" else "don\x27t preserve chat"])
  | none => sc

/-- session.cpp:398-401: the `nsfm` block. -/
def confStageNsfm (conf : SessionConfPatch) (sc : Session × List String) :
    Session × List String :=
  match conf.nsfm with
  | some b =>
    ({ sc.1 with history := { sc.1.history with flagNsfm := b } },
     sc.2 ++ [if b then "tagged NSFM" else "removed NSFM tag"])
  | none => sc

/-- session.cpp:403-406: the `deputies` block. -/
def confStageDeputies (conf : SessionConfPatch) (sc : Session × List String) :
    Session × List String :=
  match conf.deputies with
  | some b =>
    ({ sc.1 with history := { sc.1.history with flagDeputies := b } },
     sc.2 ++ [if b then "enabled deputies" else "disabled deputies"])
  | none => sc

/-- session.cpp:339-421 `Session::setSessionConfig`: apply exactly the
fields present in the sparse patch, block by block in source order; if
anything changed, rebroadcast the merged configuration (the per-change
log entries are external logging). -/
def setSessionConfig (s : Session) (conf : SessionConfPatch) (changedBy : Option Client) :
    Session :=
  let sc := confStageDeputies conf (confStageNsfm conf (confStagePreserveChat conf
    (confStageOpword conf (confStagePassword conf (confStageResetThreshold conf
    (confStageMaxUsers conf (confStageTitle conf (confStagePersistent conf
    (confStageAuthOnly conf changedBy (confStageClosed conf (s, [])))))))))))
  if sc.2 ≠ [] then sc.1.sendUpdatedSessionProperties else sc.1

/-- client.cpp:112-142 `Client::callJsonApi` (Update with an "op" field)
for the client with id `uid`: the raw operator flag is compared, and a
change is delegated to `Session::changeOpStatus`. -/
def clientJsonApiSetOp (s : Session) (uid : Nat) (op : Bool) : Session :=
  match s.getClientById uid with
  | none => s
  | some c =>
    if c.opFlag ≠ op then s.changeOpStatus uid op "the server administrator"
    else s

end Session

/-- The join/leave/ownership events of the operator-invariant claim:
client joins (`Session::joinUser`), leaves (`Session::removeUser`),
session-owner messages handled in session mode
(`Client::handleSessionMessage`), and operator grants through the
administrative JSON API. -/
inductive SEvent
  | join (user : Client) (host : Bool)
  | leave (uid : Nat)
  | ownerMsg (actor : Nat) (ctx : Nat) (ids : List Nat) (len : Nat)
  | apiGrantOp (uid : Nat)
deriving Repr

/-- Apply one event to the session. -/
def applyEvent (s : Session) : SEvent → Session
  | .join user host => s.joinUser user host
  | .leave uid => s.removeUser uid
  | .ownerMsg actor ctx ids len => s.handleSessionMessage actor ⟨ctx, .sessionOwner ids, len⟩
  | .apiGrantOp uid => s.clientJsonApiSetOp uid true

/-- Apply a sequence of events in order. -/
def applyEvents (s : Session) (evs : List SEvent) : Session :=
  evs.foldl applyEvent s

/-! Concrete fixtures used by the witness and counterexample theorems. -/

/-- An empty history with no limits configured. -/
def hist0 : History :=
  { messages := [], firstIndex := 0, lastIndex := -1, sizeInBytes := 0, sizeLimit := 0,
    autoResetThreshold := 0, autoResetThresholdBase := 0, title := "", maxUsers := 25,
    flagPersistent := false, flagPreserveChat := false, flagNsfm := false,
    flagDeputies := false, passwordHash := "", opwordHash := "", authOps := [],
    authTrusted := [], idForName := [], reservedIds := [] }

/-- A fresh guest client with the given id and name. -/
def mkClient (id : Nat) (name : String) : Client :=
  { id := id, username := name, opFlag := false, isModerator := false, isTrusted := false,
    isAuthenticated := false, isMuted := false, peerLoopback := false,
    historyPosition := -1, holdqueue := [], sent := [], uploading := false }

/-- A running session with no clients and no limits configured. -/
def sess0 : Session :=
  { state := SState.Running, initUser := -1, clients := [], resetstream := [],
    resetstreamsize := 0, history := hist0, recorder := none, recordingFile := "",
    closed := false, authOnly := false, autoResetRequestStatus := AutoResetState.NotSent,
    publicListings := [], cfgWelcomeMessage := "", cfgEnablePersistence := true,
    lastStatusElapsedMs := 0, nowMs := 0 }

/-- A client with an operator flag. -/
def opClient (id : Nat) (name : String) : Client :=
  { mkClient id name with opFlag := true }

/-- The validity check of session.cpp:743-755: the answering context id
names a connected client that is (still) an operator. -/
def Session.isValidResetResponder (s : Session) (i : Nat) : Bool :=
  match s.getClientById i with
  | some c => c.isOperator
  | none => false

/-- The effect of the first valid answer to an auto-reset query
(session.cpp:763-771): the confirmed (non-query) reset request is sent to
the responder and the status moves to Requested. -/
def Session.grantAutoReset (s : Session) (cid : Nat) : Session :=
  { s.sendDirectTo cid (.server (.resetRequest s.history.sizeLimit false)) with
    autoResetRequestStatus := AutoResetState.Requested }

/-- An opaque drawing command held by client 2 during the reset. -/
def heldMsgC1 : Message := ⟨2, .other 64 true true, 5⟩

/-- The snapshot message streamed by the resetter (client 1). -/
def snapMsgC1 : Message := ⟨1, .other 64 true true, 7⟩

/-- Clients 1 and 2 join a running session; client 1 (the auto-promoted
operator) starts a reset. -/
def sessResetC1 : Session :=
  ((sess0.joinUser (mkClient 1 "a") false).joinUser (mkClient 2 "b") false).resetSession 1

/-- During the reset, the resetter streams the snapshot into the reset
buffer and client 2's drawing command lands in its hold queue. -/
def sessResetC1b : Session :=
  (sessResetC1.handleSessionMessage 1 snapMsgC1).handleSessionMessage 2 heldMsgC1

/-- The session right after the init user's init-complete. -/
def afterInitCompleteC1 : Session := sessResetC1b.handleInitComplete 1

/-- A queried session with two operators (witness fixture). -/
def sessTwoOps : Session :=
  { sess0 with
    autoResetRequestStatus := AutoResetState.Queried
    clients := [opClient 1 "a", opClient 2 "b"] }

/-- The author name used in the size-limit warning (session.cpp:653-655):
the connected client with the message's context id, or "user #N". -/
def offendingAuthorName (s : Session) (msg : Message) : String :=
  match s.getClientById msg.contextId with
  | some c => c.username
  | none => "user #" ++ toString msg.contextId

/-! Projections used to state and prove frame facts. -/

/-- Identity and permission flags of a client (everything but the queues,
the cursor and the transport state). -/
def Client.flagsOf (c : Client) : Nat × Bool × Bool × Bool × Bool × Bool :=
  (c.id, c.opFlag, c.isModerator, c.isTrusted, c.isAuthenticated, c.isMuted)

/-- The history side tables and configuration (everything but the message
window, its size accounting and the id queue). -/
def History.sideState (h : History) :
    String × Int × Nat × Nat × Bool × Bool × Bool × Bool × String × String ×
    List String × List String :=
  (h.title, h.maxUsers, h.autoResetThreshold, h.autoResetThresholdBase,
   h.flagPersistent, h.flagPreserveChat, h.flagNsfm, h.flagDeputies,
   h.passwordHash, h.opwordHash, h.authOps, h.authTrusted)

/-- The part of the session state that pure message delivery can never
touch: the state machine, the init user, the closed/authOnly flags, the
reset buffer, the history side tables and every client's
identity/permission flags. -/
def Session.frame (s : Session) :=
  (s.state, s.initUser, s.closed, s.authOnly, s.resetstream, s.resetstreamsize,
   s.recordingFile, s.history.sideState, s.clients.map Client.flagsOf)

/-- The sub-projection of `frame` that even the state-machine transitions
preserve: the history side tables and the client flags. -/
def Session.sideFlags (s : Session) :=
  (s.history.sideState, s.clients.map Client.flagsOf)

/-- The session configuration fields governed by `setSessionConfig`,
in the order of the source blocks. -/
structure ConfigFields where
  closed : Bool
  authOnly : Bool
  persistent : Bool
  title : String
  maxUserCount : Int
  resetThreshold : Nat
  passwordHash : String
  opwordHash : String
  preserveChat : Bool
  nsfm : Bool
  deputies : Bool
deriving DecidableEq, Repr

/-- The current values of the configuration fields of a session. -/
def Session.configState (s : Session) : ConfigFields :=
  { closed := s.closed, authOnly := s.authOnly,
    persistent := s.history.flagPersistent, title := s.history.title,
    maxUserCount := s.history.maxUsers,
    resetThreshold := s.history.autoResetThreshold,
    passwordHash := s.history.passwordHash, opwordHash := s.history.opwordHash,
    preserveChat := s.history.flagPreserveChat, nsfm := s.history.flagNsfm,
    deputies := s.history.flagDeputies }

/-- The sparse-patch semantics the spec prescribes for `applyConfig`: every
field present in the patch is applied (`authOnly = true` only by the
server itself or an authenticated client), every absent field keeps its
prior value. -/
def specPatchedConfig (s : Session) (conf : SessionConfPatch) (changedBy : Option Client) :
    ConfigFields :=
  { closed := conf.closed.getD s.closed
    authOnly :=
      match conf.authOnly with
      | some b =>
        if !b || (match changedBy with | none => true | some c => c.isAuthenticated) then b
        else s.authOnly
      | none => s.authOnly
    persistent :=
      match conf.persistent with
      | some b => b && s.cfgEnablePersistence
      | none => s.history.flagPersistent
    title :=
      match conf.title with
      | some t => qstringMid t 100
      | none => s.history.title
    maxUserCount := conf.maxUserCount.getD s.history.maxUsers
    resetThreshold := conf.resetThreshold.getD s.history.autoResetThreshold
    passwordHash :=
      match conf.password with
      | some p => passwordHashOf p
      | none => s.history.passwordHash
    opwordHash :=
      match conf.opword with
      | some p => passwordHashOf p
      | none => s.history.opwordHash
    preserveChat := conf.preserveChat.getD s.history.flagPreserveChat
    nsfm := conf.nsfm.getD s.history.flagNsfm
    deputies := conf.deputies.getD s.history.flagDeputies }

/-- The operator invariant of the spec: with no authorization bypass
configured (no opword, no remembered authenticated operators), the set of
connected operators is empty only when the client set is empty. -/
def OperatorInvariant (s : Session) : Prop :=
  s.history.opwordHash = "" → s.history.isAuthenticatedOperators = false →
    (s.clients = [] ∨ ∃ c ∈ s.clients, c.isOperator = true)

/-- Observation used to track a freshly joined client through the join
pipeline: some connected client has the given id, still has its catch-up
cursor at -1 and has been sent the given message. -/
def JoinObs (uid : Nat) (cm : Message) (cs : List Client) : Prop :=
  ∃ c ∈ cs, c.id = uid ∧ c.historyPosition = -1 ∧ cm ∈ c.sent

/-- A client with a busy upload queue in an otherwise fresh session
(no-op fixture for the batch-sending claim). -/
def upClient : Client := { mkClient 1 "a" with uploading := true }

/-- A running session whose only client is still uploading. -/
def sessC6 : Session := { sess0 with clients := [upClient] }

/-! Named stages of `Session::joinUser` for `host = false` (session.cpp
lines 179-233, in order): append the client with a reset catch-up cursor,
send the catch-up count, send the welcome message, append the join
message, grant remembered operator status, grant remembered trusted
status. `joinUser` is definitionally the remaining tail (ensure an
operator exists, refresh the announcement/ban/mute lists, remember the
name-id binding) applied to `joinStep6`. -/

def joinStep1 (s : Session) (user : Client) : Session :=
  { s with clients := s.clients ++ [{ user with historyPosition := -1 }] }

def joinStep2 (s : Session) (user : Client) : Session :=
  (joinStep1 s user).sendDirectTo user.id
    (.server (.catchup (s.history.lastIndex - s.history.firstIndex)))

def joinStep3 (s : Session) (user : Client) : Session :=
  if s.cfgWelcomeMessage ≠ "" then
    (joinStep2 s user).sendDirectTo user.id (.server (.chatMessage s.cfgWelcomeMessage))
  else joinStep2 s user

def joinStep4 (s : Session) (user : Client) : Session :=
  (joinStep3 s user).addToHistory user.joinMessage

def joinStep5 (s : Session) (user : Client) : Session :=
  if user.isOperator || (joinStep4 s user).history.isOperatorName user.username then
    (joinStep4 s user).changeOpStatus user.id true "the server"
  else joinStep4 s user

def joinStep6 (s : Session) (user : Client) : Session :=
  if (joinStep5 s user).history.isTrustedName user.username then
    (joinStep5 s user).changeTrustedStatus user.id true "the server"
  else joinStep5 s user

/-! The same stages for `host = true` (the initUser branch of
session.cpp:200-207 instead of the catch-up send). -/

def joinStep2h (s : Session) (user : Client) : Session :=
  { joinStep1 s user with initUser := (user.id : Int) }

def joinStep3h (s : Session) (user : Client) : Session :=
  if s.cfgWelcomeMessage ≠ "" then
    (joinStep2h s user).sendDirectTo user.id (.server (.chatMessage s.cfgWelcomeMessage))
  else joinStep2h s user

def joinStep4h (s : Session) (user : Client) : Session :=
  (joinStep3h s user).addToHistory user.joinMessage

def joinStep5h (s : Session) (user : Client) : Session :=
  if user.isOperator || (joinStep4h s user).history.isOperatorName user.username then
    (joinStep4h s user).changeOpStatus user.id true "the server"
  else joinStep4h s user

def joinStep6h (s : Session) (user : Client) : Session :=
  if (joinStep5h s user).history.isTrustedName user.username then
    (joinStep5h s user).changeTrustedStatus user.id true "the server"
  else joinStep5h s user

/-- A guest joins the empty running session (getting auto-promoted to
operator) and is then de-opped through the administrative JSON API. -/
def sessJsonDeop : Session :=
  (sess0.joinUser (mkClient 1 "a") false).clientJsonApiSetOp 1 false

/-- The session state right after a successful history append inside
`Session::addToHistory` (history replaced by the append result, the init
user's cursor advanced / message echoed during Initialization, the message
mirrored to the recorder), on which the auto-reset threshold check and the
periodic status update then run. -/
def postAppend (s : Session) (m : Message) (h1 : History) : Session :=
  { Session.initEcho { s with history := h1 } m with
    recorder := Option.map (fun r => Writer.recordMessage r
        (Session.initEcho { s with history := h1 } m).nowMs m)
      (Session.initEcho { s with history := h1 } m).recorder }

/-- A running session (one operator, one guest) whose history size has
just crossed the effective auto-reset threshold. -/
def sessC4 : Session :=
  { sess0 with
    clients := [opClient 1 "a", mkClient 2 "b"]
    history := { hist0 with
      autoResetThreshold := 5, autoResetThresholdBase := 5, sizeInBytes := 6 } }

/-- The history produced by appending `heldMsgC1` to the empty `hist0`. -/
def h1C4 : History :=
  { hist0 with messages := [heldMsgC1], lastIndex := 0, sizeInBytes := 5 }

/-! Basic frame lemmas. -/

@[simp]
theorem Client.flagsOf_pushSent (c : Client) (m : Message) :
    (c.pushSent m).flagsOf = c.flagsOf := rfl

@[simp]
theorem Client.flagsOf_pushSentBatch (c : Client) (ms : List Message) :
    (c.pushSentBatch ms).flagsOf = c.flagsOf := rfl

theorem map_flagsOf_map (f : Client → Client) (cs : List Client)
    (hf : ∀ c, (f c).flagsOf = c.flagsOf) :
    (cs.map f).map Client.flagsOf = cs.map Client.flagsOf := by
  induction cs with
  | nil => rfl
  | cons c rest ih => simp [hf c, ih]

theorem map_flagsOf_updateFirstClient (f : Client → Client) (cs : List Client) (id : Nat)
    (hf : ∀ c, (f c).flagsOf = c.flagsOf) :
    (Session.updateFirstClient cs id f).map Client.flagsOf = cs.map Client.flagsOf := by
  induction cs with
  | nil => rfl
  | cons c rest ih =>
    unfold Session.updateFirstClient
    by_cases h : c.id = id <;> simp [h, hf c, ih]

theorem frame_directToAll (s : Session) (m : Message) :
    (s.directToAll m).frame = s.frame := by
  simp [Session.directToAll, Session.frame, map_flagsOf_map]

theorem frame_messageAll (s : Session) (text : String) (alert : Bool) :
    (s.messageAll text alert).frame = s.frame := by
  unfold Session.messageAll
  split
  · rfl
  · exact frame_directToAll ..

theorem frame_sendDirectTo (s : Session) (id : Nat) (m : Message) :
    (s.sendDirectTo id m).frame = s.frame := by
  simp [Session.sendDirectTo, Session.frame, map_flagsOf_updateFirstClient]

theorem frame_sendUpdatedBanlist (s : Session) :
    s.sendUpdatedBanlist.frame = s.frame := by
  simp [Session.sendUpdatedBanlist, Session.frame, map_flagsOf_map]

theorem frame_sendUpdatedAnnouncementList (s : Session) :
    s.sendUpdatedAnnouncementList.frame = s.frame := frame_directToAll ..

theorem frame_sendUpdatedMuteList (s : Session) :
    s.sendUpdatedMuteList.frame = s.frame := frame_directToAll ..

theorem frame_historyCacheCleanup (s : Session) :
    s.historyCacheCleanup.frame = s.frame := rfl

theorem frame_restartRecording (s : Session) :
    s.restartRecording.frame = s.frame := rfl

theorem History.addMessage_sideState {h h1 : History} {m : Message}
    (he : h.addMessage m = some h1) : h1.sideState = h.sideState := by
  unfold History.addMessage at he
  split at he
  · exact absurd he (by simp)
  · cases he
    rfl

theorem frame_initEcho (s : Session) (m : Message) :
    (s.initEcho m).frame = s.frame := by
  unfold Session.initEcho
  split
  · split
    next origin heq =>
      have h2 := map_flagsOf_updateFirstClient
        (fun c => { c with historyPosition := s.history.lastIndex }) s.clients origin.id
        (fun c => rfl)
      split
      · rw [frame_sendDirectTo]
        simp [Session.frame, h2]
      · simp [Session.frame, h2]
    · rfl
  · rfl

theorem frame_autoResetCheck (s : Session) :
    s.autoResetCheck.frame = s.frame := by
  unfold Session.autoResetCheck
  split
  · set s2 := s.directToAll
      (.server (.sizeLimitWarning s.history.sizeInBytes s.history.effectiveAutoResetThreshold))
      with hs2
    have hf : ∀ c : Client,
        (if c.isOperator then
          c.pushSent (Message.server (ServerReply.resetRequest s2.history.sizeLimit true))
        else c).flagsOf = c.flagsOf := by
      intro c
      split <;> rfl
    have h1 := frame_directToAll s
      (.server (.sizeLimitWarning s.history.sizeInBytes s.history.effectiveAutoResetThreshold))
    have h2 := map_flagsOf_map _ s2.clients hf
    rw [← hs2] at h1
    simp only [Session.frame] at h1 ⊢
    rw [h2]
    exact h1
  · rfl

theorem frame_statusUpdateCheck (s : Session) :
    s.statusUpdateCheck.frame = s.frame := by
  unfold Session.statusUpdateCheck
  split
  · have h1 := frame_directToAll s (.server (.statusUpdate s.history.sizeInBytes))
    simpa [Session.frame] using h1
  · rfl

theorem sideFlags_eq_of_frame {s1 s2 : Session} (h : s1.frame = s2.frame) :
    s1.sideFlags = s2.sideFlags :=
  congrArg (fun t => t.2.2.2.2.2.2.2) h

theorem frame_addToHistory (s : Session) (m : Message) :
    (s.addToHistory m).frame = s.frame := by
  unfold Session.addToHistory
  split
  · rfl
  · split
    · rw [frame_messageAll, frame_messageAll]
    next h1 heq =>
      have hside : h1.sideState = s.history.sideState := History.addMessage_sideState heq
      rw [frame_statusUpdateCheck, frame_autoResetCheck]
      have : Session.frame { Session.initEcho { s with history := h1 } m with
          recorder := Option.map (fun r => Writer.recordMessage r (Session.initEcho { s with history := h1 } m).nowMs m) (Session.initEcho { s with history := h1 } m).recorder } =
          Session.frame (Session.initEcho { s with history := h1 } m) := rfl
      rw [this, frame_initEcho]
      simp [Session.frame, hside]

theorem frame_sendUpdatedSessionProperties (s : Session) :
    s.sendUpdatedSessionProperties.frame = s.frame :=
  frame_addToHistory ..

theorem frame_foldl_addToHistory (s : Session) (ms : List Message) :
    (ms.foldl Session.addToHistory s).frame = s.frame := by
  induction ms generalizing s with
  | nil => rfl
  | cons m rest ih =>
    rw [List.foldl_cons, ih, frame_addToHistory]

theorem frame_enqueueHeldFor (s : Session) (cid : Nat) :
    (s.enqueueHeldFor cid).frame = s.frame := by
  unfold Session.enqueueHeldFor
  split
  · rfl
  · split
    · rfl
    next c heq =>
      have h2 := map_flagsOf_updateFirstClient
        (fun c2 => { c2 with holdqueue := [] })
        (c.holdqueue.foldl Session.addToHistory s).clients cid (fun c2 => rfl)
      have h3 := frame_foldl_addToHistory s c.holdqueue
      simp only [Session.frame] at h3 ⊢
      rw [h2]
      exact h3

theorem frame_foldl_enqueueHeldFor (s : Session) (ids : List Nat) :
    (ids.foldl Session.enqueueHeldFor s).frame = s.frame := by
  induction ids generalizing s with
  | nil => rfl
  | cons i rest ih =>
    rw [List.foldl_cons, ih, frame_enqueueHeldFor]

theorem History.reset_sideState {h h1 : History} {buffer : List Message}
    (he : h.reset buffer = some h1) : h1.sideState = h.sideState := by
  unfold History.reset at he
  split at he
  · exact absurd he (by simp)
  · cases he
    rfl

theorem sideFlags_resetCommit (s0 : Session) :
    s0.resetCommit.1.sideFlags = s0.sideFlags := by
  have ssp : ∀ t : Session, (t.sendUpdatedSessionProperties).sideFlags = t.sideFlags :=
    fun t => sideFlags_eq_of_frame (frame_sendUpdatedSessionProperties t)
  have dta : ∀ (t : Session) (m : Message), (t.directToAll m).sideFlags = t.sideFlags :=
    fun t m => sideFlags_eq_of_frame (frame_directToAll t m)
  have sts : ∀ (t : Session) (a : AutoResetState),
      (Session.sideFlags { t with autoResetRequestStatus := a }) = t.sideFlags :=
    fun t a => rfl
  have clr : ∀ p : Session × Bool,
      (Session.sideFlags { p.1 with resetstream := [], resetstreamsize := 0 }) =
      p.1.sideFlags := fun p => rfl
  unfold Session.resetCommit
  rw [clr]
  split
  · exact sideFlags_eq_of_frame (frame_messageAll ..)
  next h1 heq =>
    have hside : h1.sideState = s0.history.sideState := History.reset_sideState heq
    rw [ssp, sts, dta, dta]
    simp [Session.sideFlags, hside]

theorem sideFlags_switchState (s : Session) (ns : SState) :
    (s.switchState ns).sideFlags = s.sideFlags := by
  have heh : ∀ (t : Session) (ids : List Nat),
      ((ids.foldl Session.enqueueHeldFor t)).sideFlags = t.sideFlags :=
    fun t ids => sideFlags_eq_of_frame (frame_foldl_enqueueHeldFor t ids)
  have hset : ∀ (t : Session) (st : SState),
      (Session.sideFlags { t with state := st }) = t.sideFlags := fun t st => rfl
  have hrec : ∀ (t : Session) (b : Bool),
      (if b ∧ t.recordingFile ≠ "" then t.restartRecording else t).sideFlags = t.sideFlags := by
    intro t b
    split
    · exact sideFlags_eq_of_frame (frame_restartRecording t)
    · rfl
  unfold Session.switchState
  split
  · split
    · rfl
    · rw [hset]
      unfold Session.switchToRunningBody
      rw [heh]
      split
      · rw [hrec, sideFlags_resetCommit]
        rfl
      · rw [hrec]
        rfl
  · split
    · split
      · rfl
      · rw [hset, sideFlags_eq_of_frame (frame_messageAll ..)]
        rfl
    · split
      · rfl
      · rfl

theorem sideFlags_abortReset (s : Session) :
    s.abortReset.sideFlags = s.sideFlags := by
  unfold Session.abortReset
  rw [sideFlags_eq_of_frame (frame_messageAll ..), sideFlags_switchState]
  rfl

theorem sideFlags_setClosed (s : Session) (b : Bool) :
    (s.setClosed b).sideFlags = s.sideFlags := by
  unfold Session.setClosed
  split
  · rw [sideFlags_eq_of_frame (frame_sendUpdatedSessionProperties _)]
    rfl
  · rfl

/-! The sparse-patch characterization of `setSessionConfig`. -/

theorem configState_eq_of_frame {s1 s2 : Session} (h : s1.frame = s2.frame) :
    s1.configState = s2.configState := by
  simp only [Session.frame, Prod.mk.injEq] at h
  obtain ⟨-, -, hc, hao, -, -, -, hside, -⟩ := h
  simp only [History.sideState, Prod.mk.injEq] at hside
  obtain ⟨ht, hmu, hart, hartb, hfp, hfpc, hfn, hfd, hpw, how, hao2, hat⟩ := hside
  simp [Session.configState, hc, hao, ht, hmu, hart, hfp, hfpc, hfn, hfd, hpw, how]

theorem configState_confStageClosed (conf : SessionConfPatch) (sc : Session × List String) :
    (Session.confStageClosed conf sc).1.configState =
      { sc.1.configState with closed := conf.closed.getD sc.1.configState.closed } := by
  unfold Session.confStageClosed
  cases conf.closed <;> rfl

theorem configState_confStageAuthOnly (conf : SessionConfPatch) (changedBy : Option Client)
    (sc : Session × List String) :
    (Session.confStageAuthOnly conf changedBy sc).1.configState =
      { sc.1.configState with authOnly :=
          match conf.authOnly with
          | some b =>
            if !b || (match changedBy with | none => true | some c => c.isAuthenticated) then b
            else sc.1.configState.authOnly
          | none => sc.1.configState.authOnly } := by
  unfold Session.confStageAuthOnly
  cases conf.authOnly with
  | none => rfl
  | some b =>
    by_cases hb : (!b || (match changedBy with | none => true | some c => c.isAuthenticated)) = true
    · simp only [hb, if_true]
      rfl
    · simp only [hb, if_false]
      rfl

theorem configState_confStagePersistent (conf : SessionConfPatch) (sc : Session × List String) :
    (Session.confStagePersistent conf sc).1.configState =
      { sc.1.configState with persistent :=
          match conf.persistent with
          | some b => b && sc.1.cfgEnablePersistence
          | none => sc.1.configState.persistent } := by
  unfold Session.confStagePersistent
  cases conf.persistent <;> rfl

theorem configState_confStageTitle (conf : SessionConfPatch) (sc : Session × List String) :
    (Session.confStageTitle conf sc).1.configState =
      { sc.1.configState with title :=
          match conf.title with
          | some t => qstringMid t 100
          | none => sc.1.configState.title } := by
  unfold Session.confStageTitle
  cases conf.title <;> rfl

theorem configState_confStageMaxUsers (conf : SessionConfPatch) (sc : Session × List String) :
    (Session.confStageMaxUsers conf sc).1.configState =
      { sc.1.configState with maxUserCount := conf.maxUserCount.getD sc.1.configState.maxUserCount } := by
  unfold Session.confStageMaxUsers
  cases conf.maxUserCount <;> rfl

theorem configState_confStageResetThreshold (conf : SessionConfPatch) (sc : Session × List String) :
    (Session.confStageResetThreshold conf sc).1.configState =
      { sc.1.configState with resetThreshold :=
          conf.resetThreshold.getD sc.1.configState.resetThreshold } := by
  unfold Session.confStageResetThreshold
  cases conf.resetThreshold <;> rfl

theorem configState_confStagePassword (conf : SessionConfPatch) (sc : Session × List String) :
    (Session.confStagePassword conf sc).1.configState =
      { sc.1.configState with passwordHash :=
          match conf.password with
          | some p => passwordHashOf p
          | none => sc.1.configState.passwordHash } := by
  unfold Session.confStagePassword
  cases conf.password <;> rfl

theorem configState_confStageOpword (conf : SessionConfPatch) (sc : Session × List String) :
    (Session.confStageOpword conf sc).1.configState =
      { sc.1.configState with opwordHash :=
          match conf.opword with
          | some p => passwordHashOf p
          | none => sc.1.configState.opwordHash } := by
  unfold Session.confStageOpword
  cases conf.opword <;> rfl

theorem configState_confStagePreserveChat (conf : SessionConfPatch) (sc : Session × List String) :
    (Session.confStagePreserveChat conf sc).1.configState =
      { sc.1.configState with preserveChat :=
          conf.preserveChat.getD sc.1.configState.preserveChat } := by
  unfold Session.confStagePreserveChat
  cases conf.preserveChat <;> rfl

theorem configState_confStageNsfm (conf : SessionConfPatch) (sc : Session × List String) :
    (Session.confStageNsfm conf sc).1.configState =
      { sc.1.configState with nsfm := conf.nsfm.getD sc.1.configState.nsfm } := by
  unfold Session.confStageNsfm
  cases conf.nsfm <;> rfl

theorem configState_confStageDeputies (conf : SessionConfPatch) (sc : Session × List String) :
    (Session.confStageDeputies conf sc).1.configState =
      { sc.1.configState with deputies := conf.deputies.getD sc.1.configState.deputies } := by
  unfold Session.confStageDeputies
  cases conf.deputies <;> rfl

theorem cfgEP_confStageClosed (conf : SessionConfPatch) (sc : Session × List String) :
    (Session.confStageClosed conf sc).1.cfgEnablePersistence = sc.1.cfgEnablePersistence := by
  unfold Session.confStageClosed
  cases conf.closed <;> rfl

theorem cfgEP_confStageAuthOnly (conf : SessionConfPatch) (changedBy : Option Client)
    (sc : Session × List String) :
    (Session.confStageAuthOnly conf changedBy sc).1.cfgEnablePersistence =
      sc.1.cfgEnablePersistence := by
  unfold Session.confStageAuthOnly
  cases conf.authOnly with
  | none => rfl
  | some b =>
    by_cases hb : (!b || (match changedBy with | none => true | some c => c.isAuthenticated)) = true
    · simp [hb]
    · simp [hb]

theorem configState_ite_broadcast (p : Session × List String) :
    (if p.2 ≠ [] then p.1.sendUpdatedSessionProperties else p.1).configState =
      p.1.configState := by
  split
  · exact configState_eq_of_frame (frame_sendUpdatedSessionProperties _)
  · rfl

theorem setSessionConfig_configState (s : Session) (conf : SessionConfPatch)
    (changedBy : Option Client) :
    (s.setSessionConfig conf changedBy).configState = specPatchedConfig s conf changedBy := by
  unfold Session.setSessionConfig
  simp only [configState_ite_broadcast]
  rw [configState_confStageDeputies, configState_confStageNsfm,
    configState_confStagePreserveChat, configState_confStageOpword,
    configState_confStagePassword, configState_confStageResetThreshold,
    configState_confStageMaxUsers, configState_confStageTitle,
    configState_confStagePersistent, configState_confStageAuthOnly,
    configState_confStageClosed, cfgEP_confStageAuthOnly, cfgEP_confStageClosed]
  rfl

theorem qstringMid_length_le (t : String) (n : Nat) : (qstringMid t n).length ≤ n := by
  have h : (qstringMid t n).length = (t.data.take n).length := rfl
  rw [h, List.length_take]
  exact min_le_left ..

/-- C9: `setSessionConfig(conf, changedBy)` changes only the configuration
fields whose keys are present in the sparse patch `conf` — every field not
named keeps its prior value — and an `authOnly := true` patch takes effect
only when `changedBy` is the server itself (`none`) or an authenticated
client, while `authOnly := false` is applied regardless: the resulting
configuration is exactly the spec-side sparse-patch semantics
`specPatchedConfig`. -/
theorem setSessionConfig_sparse_patch (s : Session) (conf : SessionConfPatch)
    (changedBy : Option Client) :
    (s.setSessionConfig conf changedBy).configState = specPatchedConfig s conf changedBy :=
  setSessionConfig_configState s conf changedBy

/-- C10: after any `setSessionConfig` call whose patch contains a title,
the stored session title is exactly the first 100 characters of the
supplied string, and hence never exceeds 100 characters. -/
theorem setSessionConfig_title_truncation (s : Session) (conf : SessionConfPatch)
    (changedBy : Option Client) (t : String) (ht : conf.title = some t) :
    (s.setSessionConfig conf changedBy).history.title = qstringMid t 100 ∧
    (s.setSessionConfig conf changedBy).history.title.length ≤ 100 := by
  have h1 : (s.setSessionConfig conf changedBy).configState.title =
      (specPatchedConfig s conf changedBy).title := by
    rw [setSessionConfig_configState]
  simp only [specPatchedConfig, ht] at h1
  refine ⟨h1, ?_⟩
  rw [show (s.setSessionConfig conf changedBy).history.title = qstringMid t 100 from h1]
  exact qstringMid_length_le t 100

theorem string_append_ne_empty_right (x y : String) (hy : y ≠ "") : x ++ y ≠ "" := by
  intro h
  apply hy
  have hd := congrArg String.length h
  rw [String.length_append] at hd
  have h0 : ("" : String).length = 0 := rfl
  rw [h0] at hd
  have h1 : y.length = 0 := by omega
  have h2 : y.data.length = 0 := h1
  cases y with
  | mk d =>
    cases d with
    | nil => rfl
    | cons a b => simp at h2

/-- C5: `addToHistory` is a no-op once the session is Shutdown; when the
history rejects the append for size, the history, the recorder and the
auto-reset status are untouched and every client is sent the two warnings,
the second naming the offending author (the connected client with the
message's context id, or its numeric id). -/
theorem addToHistory_shutdown_and_reject (s : Session) (msg : Message) :
    (s.state = SState.Shutdown → s.addToHistory msg = s) ∧
    (s.state ≠ SState.Shutdown → s.history.addMessage msg = none →
      (s.addToHistory msg).history = s.history ∧
      (s.addToHistory msg).recorder = s.recorder ∧
      (s.addToHistory msg).autoResetRequestStatus = s.autoResetRequestStatus ∧
      (s.addToHistory msg).clients = s.clients.map (fun c =>
        (c.pushSent (.server (.chatMessage "History size limit reached!"))).pushSent
          (.server (.chatMessage (offendingAuthorName s msg ++
            " broke the camel\x27s back. Session must be reset to continue drawing."))))) := by
  constructor
  · intro hs
    unfold Session.addToHistory
    rw [if_pos hs]
  · intro hs hrej
    have hne2 : (offendingAuthorName s msg ++
        " broke the camel\x27s back. Session must be reset to continue drawing.") ≠ "" :=
      string_append_ne_empty_right _ _ (by decide)
    unfold Session.addToHistory
    rw [if_neg hs]
    simp only [hrej]
    unfold Session.messageAll
    rw [if_neg (by exact hne2), if_neg (by decide)]
    unfold Session.directToAll
    refine ⟨rfl, rfl, rfl, ?_⟩
    simp [List.map_map, Function.comp, offendingAuthorName]

/-- Witness for C5: a Shutdown session ignores the append, and a full
history rejects it leaving the history unchanged. -/
theorem addToHistory_shutdown_and_reject_witness :
    (Session.addToHistory { sess0 with state := SState.Shutdown }
        ⟨5, .other 64 true true, 3⟩ = { sess0 with state := SState.Shutdown }) ∧
    ((Session.addToHistory
        { sess0 with history := { hist0 with sizeLimit := 10, sizeInBytes := 10 } }
        ⟨5, .other 64 true true, 3⟩).history =
      { hist0 with sizeLimit := 10, sizeInBytes := 10 }) :=
  ⟨(addToHistory_shutdown_and_reject { sess0 with state := SState.Shutdown }
      ⟨5, .other 64 true true, 3⟩).1 rfl,
   ((addToHistory_shutdown_and_reject
      { sess0 with history := { hist0 with sizeLimit := 10, sizeInBytes := 10 } }
      ⟨5, .other 64 true true, 3⟩).2 (by decide) (by decide)).1⟩

theorem initEcho_recorder (s : Session) (m : Message) :
    (s.initEcho m).recorder = s.recorder ∧ (s.initEcho m).nowMs = s.nowMs := by
  unfold Session.initEcho
  split
  · split
    · split <;> exact ⟨rfl, rfl⟩
    · exact ⟨rfl, rfl⟩
  · exact ⟨rfl, rfl⟩

theorem autoResetCheck_recorder (s : Session) :
    s.autoResetCheck.recorder = s.recorder := by
  unfold Session.autoResetCheck
  split <;> rfl

theorem statusUpdateCheck_recorder (s : Session) :
    s.statusUpdateCheck.recorder = s.recorder := by
  unfold Session.statusUpdateCheck
  split <;> rfl

/-- C8 (amended): when a recorder is active, every message successfully
appended to the history is handed to `Writer.recordMessage`; the writer
writes the message itself (possibly preceded by interval/timestamp
markers) exactly when the message is recordable — non-recordable control
messages are skipped (writer.cpp:208). -/
theorem recorder_mirrors_appends (s : Session) (msg : Message) (w : Writer)
    (hw : s.recorder = some w) (hs : s.state ≠ SState.Shutdown)
    (h1 : History) (happ : s.history.addMessage msg = some h1) :
    (s.addToHistory msg).recorder = some (w.recordMessage s.nowMs msg) ∧
    (msg.isRecordable = true →
      ∃ markers, (w.recordMessage s.nowMs msg).output = w.output ++ markers ++ [msg]) ∧
    (msg.isRecordable = false → w.recordMessage s.nowMs msg = w) := by
  refine ⟨?_, ?_, ?_⟩
  · unfold Session.addToHistory
    rw [if_neg hs]
    simp only [happ]
    rw [statusUpdateCheck_recorder, autoResetCheck_recorder]
    have hrec := (initEcho_recorder { s with history := h1 } msg).1
    have hnow := (initEcho_recorder { s with history := h1 } msg).2
    have hrec2 : (Session.initEcho { s with history := h1 } msg).recorder = s.recorder := hrec
    have hnow2 : (Session.initEcho { s with history := h1 } msg).nowMs = s.nowMs := hnow
    rw [hrec2, hnow2, hw]
    rfl
  · intro hr
    by_cases c1 : w.minInterval > 0
    · by_cases c2 : s.nowMs - w.intervalStart ≥ w.minInterval
      · by_cases c3 : w.timestampInterval > 0 ∧ s.nowMs - w.lastTimestamp ≥ w.timestampInterval
        · exact ⟨[⟨0, .interval (min 65535 (s.nowMs - w.intervalStart)), 0⟩,
            ⟨0, .marker (toString s.nowMs), 0⟩],
            by simp [Writer.recordMessage, Writer.writeMessage, hr, c1, c2, c3]⟩
        · exact ⟨[⟨0, .interval (min 65535 (s.nowMs - w.intervalStart)), 0⟩],
            by simp [Writer.recordMessage, Writer.writeMessage, hr, c1, c2, c3]⟩
      · by_cases c3 : w.timestampInterval > 0 ∧ s.nowMs - w.lastTimestamp ≥ w.timestampInterval
        · exact ⟨[⟨0, .marker (toString s.nowMs), 0⟩],
            by simp [Writer.recordMessage, Writer.writeMessage, hr, c1, c2, c3]⟩
        · exact ⟨[],
            by simp [Writer.recordMessage, Writer.writeMessage, hr, c1, c2, c3]⟩
    · by_cases c3 : w.timestampInterval > 0 ∧ s.nowMs - w.lastTimestamp ≥ w.timestampInterval
      · exact ⟨[⟨0, .marker (toString s.nowMs), 0⟩],
          by simp [Writer.recordMessage, Writer.writeMessage, hr, c1, c3]⟩
      · exact ⟨[],
          by simp [Writer.recordMessage, Writer.writeMessage, hr, c1, c3]⟩
  · intro hr
    unfold Writer.recordMessage
    rw [if_neg (by simp [hr])]

/-- Witness for C8's amended theorem: a recordable meta message appended
to a recorded session reaches the writer's output. -/
theorem recorder_mirrors_appends_witness :
    (Session.addToHistory { sess0 with recorder := some Writer.fresh }
        ⟨7, .userLeave, 2⟩).recorder =
      some (Writer.fresh.recordMessage 0 ⟨7, .userLeave, 2⟩) ∧
    (∃ markers, (Writer.fresh.recordMessage 0 ⟨7, .userLeave, 2⟩).output =
      Writer.fresh.output ++ markers ++ [⟨7, .userLeave, 2⟩]) := by
  have h := recorder_mirrors_appends { sess0 with recorder := some Writer.fresh }
    ⟨7, .userLeave, 2⟩ Writer.fresh rfl (by decide) _ rfl
  exact ⟨h.1, h.2.1 rfl⟩

/-- Counterexample for C8 as stated: a server command (a transient control
message) is successfully committed to the history of a session with an
active recorder, yet `recordMessage` writes nothing — the recorder output
stays empty, so not every committed message is written. -/
theorem recorder_skips_committed_control_message :
    (Session.addToHistory { sess0 with recorder := some Writer.fresh }
        (Message.server (.alert "hello"))).history.messages =
      [Message.server (.alert "hello")] ∧
    (Session.addToHistory { sess0 with recorder := some Writer.fresh }
        (Message.server (.alert "hello"))).recorder = some Writer.fresh ∧
    ((Session.addToHistory { sess0 with recorder := some Writer.fresh }
        (Message.server (.alert "hello"))).recorder.getD Writer.fresh).output = [] := by
  decide

/-- Witness for C10 at a concrete 150-character title. -/
theorem setSessionConfig_title_truncation_witness :
    (sess0.setSessionConfig
        { SessionConfPatch.empty with title := some (String.mk (List.replicate 150 'a')) }
        none).history.title =
      qstringMid (String.mk (List.replicate 150 'a')) 100 ∧
    (sess0.setSessionConfig
        { SessionConfPatch.empty with title := some (String.mk (List.replicate 150 'a')) }
        none).history.title.length ≤ 100 :=
  setSessionConfig_title_truncation sess0
    { SessionConfPatch.empty with title := some (String.mk (List.replicate 150 'a')) }
    none (String.mk (List.replicate 150 'a')) rfl

/-! The auto-reset first-responder election. -/

theorem readyToAutoReset_invalid (s : Session) (i : Nat)
    (h : ¬ s.isValidResetResponder i = true) : s.readyToAutoReset i = s := by
  unfold Session.readyToAutoReset
  unfold Session.isValidResetResponder at h
  split
  · rfl
  next c heq =>
    rw [heq] at h
    rw [if_pos]
    intro hop
    exact h hop

theorem readyToAutoReset_notQueried (s : Session) (i : Nat)
    (h : s.autoResetRequestStatus ≠ AutoResetState.Queried) : s.readyToAutoReset i = s := by
  unfold Session.readyToAutoReset
  split
  · rfl
  next c heq =>
    by_cases hop : c.isOperator = true
    · rw [if_neg (by simp [hop]), if_pos h]
    · rw [if_pos (by simp [hop])]

theorem readyToAutoReset_grant (s : Session) (i : Nat)
    (hv : s.isValidResetResponder i = true)
    (hq : s.autoResetRequestStatus = AutoResetState.Queried) :
    s.readyToAutoReset i = s.grantAutoReset i := by
  unfold Session.readyToAutoReset
  unfold Session.isValidResetResponder at hv
  split
  next heq =>
    rw [heq] at hv
    simp at hv
  next c heq =>
    rw [heq] at hv
    have hv2 : c.isOperator = true := hv
    rw [if_neg (by simp [hv2]), if_neg (by simp [hq])]
    have hid : c.id = i := by
      have := List.find?_some heq
      simpa using this
    unfold Session.grantAutoReset
    rw [hid]

theorem foldl_readyToAutoReset_invalid (s : Session) (ids : List Nat)
    (h : ∀ i ∈ ids, ¬ s.isValidResetResponder i = true) :
    ids.foldl Session.readyToAutoReset s = s := by
  induction ids with
  | nil => rfl
  | cons i rest ih =>
    rw [List.foldl_cons, readyToAutoReset_invalid s i (h i (by simp))]
    exact ih (fun j hj => h j (by simp [hj]))

theorem foldl_readyToAutoReset_requested (s : Session) (ids : List Nat)
    (h : s.autoResetRequestStatus ≠ AutoResetState.Queried) :
    ids.foldl Session.readyToAutoReset s = s := by
  induction ids with
  | nil => rfl
  | cons i rest ih =>
    rw [List.foldl_cons, readyToAutoReset_notQueried s i h]
    exact ih

/-- C3: once the auto-reset status is Queried, in any sequence of
`readyToAutoReset` answers exactly the first one naming a connected client
that is still an operator is granted: the session becomes
`grantAutoReset` (the confirmed reset request is sent to that responder
and the status moves to Requested), while every other answer — unknown
client, non-operator, or status no longer Queried — leaves the session
unchanged. -/
theorem autoreset_single_grant (s : Session) (ids pre post : List Nat) (k : Nat) :
    ((∀ i ∈ ids, ¬ s.isValidResetResponder i = true) →
      ids.foldl Session.readyToAutoReset s = s) ∧
    (s.autoResetRequestStatus ≠ AutoResetState.Queried →
      ids.foldl Session.readyToAutoReset s = s) ∧
    (s.autoResetRequestStatus = AutoResetState.Queried → ids = pre ++ k :: post →
      (∀ i ∈ pre, ¬ s.isValidResetResponder i = true) →
      s.isValidResetResponder k = true →
      ids.foldl Session.readyToAutoReset s = s.grantAutoReset k ∧
      (s.grantAutoReset k).autoResetRequestStatus = AutoResetState.Requested) := by
  refine ⟨foldl_readyToAutoReset_invalid s ids,
    foldl_readyToAutoReset_requested s ids, ?_⟩
  intro hq hsplit hpre hk
  subst hsplit
  rw [List.foldl_append, foldl_readyToAutoReset_invalid s pre hpre, List.foldl_cons,
    readyToAutoReset_grant s k hk hq,
    foldl_readyToAutoReset_requested (s.grantAutoReset k) post (by
      unfold Session.grantAutoReset
      simp)]
  exact ⟨rfl, rfl⟩

/-- Witness for C3: with two operators queried, answers [3, 1, 2] grant
the reset to client 1 (3 is unknown, 2 answers late). -/
theorem autoreset_single_grant_witness :
    ([3, 1, 2].foldl Session.readyToAutoReset sessTwoOps =
      Session.grantAutoReset sessTwoOps 1) ∧
    (Session.grantAutoReset sessTwoOps 1).autoResetRequestStatus =
      AutoResetState.Requested :=
  (autoreset_single_grant sessTwoOps [3, 1, 2] [3] [2] 1).2.2 rfl rfl
    (by decide) (by decide)

/-- C1: evaluating `handleInitComplete` at the failing input. The reset
commit itself behaves as claimed — the buffered snapshot is prepended with
the join messages and the operator list, `HistoryLog.reset` replaces all
prior history, the reset and catch-up notifications reach both clients and
the session transitions to Running — but the final step the claim (and
session.cpp:151-152) calls for, flushing every hold queue into the
history, does not happen: `enqueueHeldCommands` runs while `m_state` is
still Reset (session.cpp assigns `m_state = newstate` only at line 163),
so `isHoldLocked()` is still true and client 2's held message stays in its
hold queue and never reaches the history. -/
theorem initComplete_leaves_holdqueues_unflushed :
    afterInitCompleteC1.state = SState.Running ∧
    afterInitCompleteC1.history.messages =
      [⟨0, .sessionOwner [1], 0⟩,
       ⟨2, .userJoin false false "b", 0⟩,
       ⟨1, .userJoin false false "a", 0⟩,
       snapMsgC1,
       .server (.sessionConf afterInitCompleteC1.confSnapshot)] ∧
    (∀ c ∈ afterInitCompleteC1.clients,
      Message.server ServerReply.resetDone ∈ c.sent ∧
      Message.server (ServerReply.catchup 3) ∈ c.sent) ∧
    ((afterInitCompleteC1.getClientById 2).map (fun c => c.holdqueue)) = some [heldMsgC1] ∧
    heldMsgC1 ∉ afterInitCompleteC1.history.messages := by
  decide

/-! Machinery for the batch-sending claim: a general fold invariant, the
init-user frame projection, and preservation of the joiner observation
`JoinObs` by every operation of the join pipeline. -/

theorem foldl_invariant {α β : Type} (f : α → β → α) (P : α → Prop)
    (hstep : ∀ a b, P a → P (f a b)) (l : List β) (a : α) (h : P a) :
    P (l.foldl f a) := by
  induction l generalizing a with
  | nil => exact h
  | cons b rest ih => exact ih (f a b) (hstep a b h)

theorem initUser_eq_of_frame {s1 s2 : Session} (h : s1.frame = s2.frame) :
    s1.initUser = s2.initUser :=
  congrArg (fun t => t.2.1) h

theorem messageAll_initUser (s : Session) (text : String) (alert : Bool) :
    (s.messageAll text alert).initUser = s.initUser :=
  initUser_eq_of_frame (frame_messageAll s text alert)

theorem updateFirstClient_append_fresh (xs : List Client) (u : Client) (uid : Nat)
    (f : Client → Client) (hu : u.id = uid) (hx : ∀ x ∈ xs, x.id ≠ uid) :
    Session.updateFirstClient (xs ++ [u]) uid f = xs ++ [f u] := by
  induction xs with
  | nil => simp [Session.updateFirstClient, hu]
  | cons a rest ih =>
    rw [List.cons_append, Session.updateFirstClient,
      if_neg (hx a (List.mem_cons_self a rest)),
      ih (fun x hx2 => hx x (List.mem_cons_of_mem a hx2))]
    rfl

theorem JoinObs_map (uid : Nat) (cm : Message) (cs : List Client) (g : Client → Client)
    (hg : ∀ c, (g c).id = c.id ∧ (g c).historyPosition = c.historyPosition ∧
      ∃ ex, (g c).sent = c.sent ++ ex) :
    JoinObs uid cm cs → JoinObs uid cm (cs.map g) := by
  rintro ⟨c, hmem, hid, hpos, hsent⟩
  obtain ⟨hgid, hgpos, ex, hgsent⟩ := hg c
  exact ⟨g c, List.mem_map_of_mem g hmem, by rw [hgid, hid],
    by rw [hgpos, hpos], by rw [hgsent]; exact List.mem_append.mpr (Or.inl hsent)⟩

theorem JoinObs_updateFirst (uid : Nat) (cm : Message) (cs : List Client) (tid : Nat)
    (g : Client → Client)
    (hg : ∀ c, (g c).id = c.id ∧ (g c).historyPosition = c.historyPosition ∧
      ∃ ex, (g c).sent = c.sent ++ ex) :
    JoinObs uid cm cs → JoinObs uid cm (Session.updateFirstClient cs tid g) := by
  induction cs with
  | nil => exact fun h => h
  | cons a rest ih =>
    intro h
    obtain ⟨c, hmem, hid, hpos, hsent⟩ := h
    rw [Session.updateFirstClient]
    by_cases ha : a.id = tid
    · rw [if_pos ha]
      rcases List.mem_cons.mp hmem with hca | hcr
      · subst hca
        obtain ⟨hgid, hgpos, ex, hgsent⟩ := hg c
        exact ⟨g c, List.mem_cons_self _ _, by rw [hgid, hid],
          by rw [hgpos, hpos], by rw [hgsent]; exact List.mem_append.mpr (Or.inl hsent)⟩
      · exact ⟨c, List.mem_cons_of_mem _ hcr, hid, hpos, hsent⟩
    · rw [if_neg ha]
      rcases List.mem_cons.mp hmem with hca | hcr
      · subst hca
        exact ⟨c, List.mem_cons_self _ _, hid, hpos, hsent⟩
      · obtain ⟨c2, hm2, h2⟩ := ih ⟨c, hcr, hid, hpos, hsent⟩
        exact ⟨c2, List.mem_cons_of_mem _ hm2, h2⟩

theorem JoinObs_updateFirst_ne (uid : Nat) (cm : Message) (cs : List Client) (tid : Nat)
    (f : Client → Client) (hne : tid ≠ uid) :
    JoinObs uid cm cs → JoinObs uid cm (Session.updateFirstClient cs tid f) := by
  induction cs with
  | nil => exact fun h => h
  | cons a rest ih =>
    intro h
    obtain ⟨c, hmem, hid, hpos, hsent⟩ := h
    rw [Session.updateFirstClient]
    by_cases ha : a.id = tid
    · rw [if_pos ha]
      rcases List.mem_cons.mp hmem with hca | hcr
      · subst hca
        exact absurd (ha.symm.trans hid) hne
      · exact ⟨c, List.mem_cons_of_mem _ hcr, hid, hpos, hsent⟩
    · rw [if_neg ha]
      rcases List.mem_cons.mp hmem with hca | hcr
      · subst hca
        exact ⟨c, List.mem_cons_self _ _, hid, hpos, hsent⟩
      · obtain ⟨c2, hm2, h2⟩ := ih ⟨c, hcr, hid, hpos, hsent⟩
        exact ⟨c2, List.mem_cons_of_mem _ hm2, h2⟩

theorem JO_sendDirectTo (s : Session) (tid : Nat) (m : Message) (uid : Nat) (cm : Message)
    (h : JoinObs uid cm s.clients) : JoinObs uid cm (s.sendDirectTo tid m).clients :=
  JoinObs_updateFirst uid cm s.clients tid _ (fun _ => ⟨rfl, rfl, [m], rfl⟩) h

theorem JO_directToAll (s : Session) (m : Message) (uid : Nat) (cm : Message)
    (h : JoinObs uid cm s.clients) : JoinObs uid cm (s.directToAll m).clients :=
  JoinObs_map uid cm s.clients _ (fun _ => ⟨rfl, rfl, [m], rfl⟩) h

theorem JO_messageAll (s : Session) (text : String) (alert : Bool) (uid : Nat) (cm : Message)
    (h : JoinObs uid cm s.clients) : JoinObs uid cm (s.messageAll text alert).clients := by
  unfold Session.messageAll
  split
  · exact h
  · exact JO_directToAll s _ uid cm h

theorem JO_setRawOperatorOf (s : Session) (i : Nat) (b : Bool) (uid : Nat) (cm : Message)
    (h : JoinObs uid cm s.clients) : JoinObs uid cm (s.setRawOperatorOf i b).clients := by
  refine JoinObs_map uid cm s.clients _ (fun c => ?_) h
  by_cases hc : c.id = i
  · rw [if_pos hc]
    exact ⟨rfl, rfl, [], (List.append_nil _).symm⟩
  · rw [if_neg hc]
    exact ⟨rfl, rfl, [], (List.append_nil _).symm⟩

theorem JO_setTrustedOf (s : Session) (i : Nat) (b : Bool) (uid : Nat) (cm : Message)
    (h : JoinObs uid cm s.clients) : JoinObs uid cm (s.setTrustedOf i b).clients := by
  refine JoinObs_map uid cm s.clients _ (fun c => ?_) h
  by_cases hc : c.id = i
  · rw [if_pos hc]
    exact ⟨rfl, rfl, [], (List.append_nil _).symm⟩
  · rw [if_neg hc]
    exact ⟨rfl, rfl, [], (List.append_nil _).symm⟩

theorem JO_sendUpdatedBanlist (s : Session) (uid : Nat) (cm : Message)
    (h : JoinObs uid cm s.clients) : JoinObs uid cm s.sendUpdatedBanlist.clients :=
  JoinObs_map uid cm s.clients _ (fun _ => ⟨rfl, rfl, _, rfl⟩) h

theorem JO_sendUpdatedAnnouncementList (s : Session) (uid : Nat) (cm : Message)
    (h : JoinObs uid cm s.clients) : JoinObs uid cm s.sendUpdatedAnnouncementList.clients :=
  JO_directToAll s (.server (.confAnnouncements s.publicListings)) uid cm h

theorem JO_sendUpdatedMuteList (s : Session) (uid : Nat) (cm : Message)
    (h : JoinObs uid cm s.clients) : JoinObs uid cm s.sendUpdatedMuteList.clients := by
  unfold Session.sendUpdatedMuteList
  exact JO_directToAll _ _ uid cm h

theorem JO_initEcho (s : Session) (m : Message) (uid : Nat) (cm : Message)
    (hinit : (uid : Int) ≠ s.initUser)
    (h : JoinObs uid cm s.clients) : JoinObs uid cm (s.initEcho m).clients := by
  unfold Session.initEcho
  split
  · split
    next origin heq =>
      have hne : origin.id ≠ uid := by
        intro he
        have ho2 : s.clients.find? (fun c => (c.id : Int) == s.initUser) = some origin := heq
        have hp := List.find?_some ho2
        have hpi : (origin.id : Int) = s.initUser := eq_of_beq hp
        rw [he] at hpi
        exact hinit hpi
      have h1 : JoinObs uid cm (Session.updateFirstClient s.clients origin.id
          (fun c => { c with historyPosition := s.history.lastIndex })) :=
        JoinObs_updateFirst_ne uid cm s.clients origin.id _ hne h
      split
      · exact JoinObs_updateFirst uid cm
          (Session.updateFirstClient s.clients origin.id
            (fun c => { c with historyPosition := s.history.lastIndex }))
          origin.id _ (fun _ => ⟨rfl, rfl, [m], rfl⟩) h1
      · exact h1
    next heq => exact h
  · exact h

theorem JO_autoResetCheck (s : Session) (uid : Nat) (cm : Message)
    (h : JoinObs uid cm s.clients) : JoinObs uid cm s.autoResetCheck.clients := by
  unfold Session.autoResetCheck
  split
  · refine JoinObs_map uid cm _ _ (fun c => ?_)
      (JoinObs_map uid cm s.clients _ (fun _ => ⟨rfl, rfl, _, rfl⟩) h)
    by_cases hop : c.isOperator = true
    · rw [if_pos hop]
      exact ⟨rfl, rfl, _, rfl⟩
    · rw [if_neg hop]
      exact ⟨rfl, rfl, [], (List.append_nil _).symm⟩
  · exact h

theorem JO_statusUpdateCheck (s : Session) (uid : Nat) (cm : Message)
    (h : JoinObs uid cm s.clients) : JoinObs uid cm s.statusUpdateCheck.clients := by
  unfold Session.statusUpdateCheck
  split
  · exact JoinObs_map uid cm s.clients _ (fun _ => ⟨rfl, rfl, _, rfl⟩) h
  · exact h

theorem addToHistory_track (s : Session) (m : Message) (uid : Nat) (cm : Message) (iu : Int)
    (hinit : (uid : Int) ≠ iu) (h : s.initUser = iu ∧ JoinObs uid cm s.clients) :
    (s.addToHistory m).initUser = iu ∧ JoinObs uid cm (s.addToHistory m).clients := by
  refine ⟨(initUser_eq_of_frame (frame_addToHistory s m)).trans h.1, ?_⟩
  unfold Session.addToHistory
  split
  · exact h.2
  · split
    · exact JO_messageAll _ _ _ uid cm (JO_messageAll _ _ _ uid cm h.2)
    next h1 heq =>
      apply JO_statusUpdateCheck
      apply JO_autoResetCheck
      exact JO_initEcho { s with history := h1 } m uid cm
        (fun hx => hinit (hx.trans h.1)) h.2

theorem opStep_true_track (tid : Nat) (changedBy : String) (uid : Nat) (cm : Message)
    (iu : Int) (acc : Session × List Nat × Option Nat) (c : Client)
    (h : acc.1.initUser = iu ∧ JoinObs uid cm acc.1.clients ∧ acc.2.2 = none) :
    (Session.opStep tid true changedBy acc c).1.initUser = iu ∧
      JoinObs uid cm (Session.opStep tid true changedBy acc c).1.clients ∧
      (Session.opStep tid true changedBy acc c).2.2 = none := by
  dsimp only [Session.opStep]
  split
  · dsimp only
    refine ⟨?_, ?_, ?_⟩
    · split
      · exact (messageAll_initUser _ _ _).trans h.1
      · exact (messageAll_initUser _ _ _).trans h.1
    · split
      · exact JO_messageAll _ _ _ uid cm (JO_setRawOperatorOf _ _ _ uid cm h.2.1)
      · exact JO_messageAll _ _ _ uid cm (JO_setRawOperatorOf _ _ _ uid cm h.2.1)
    · exact h.2.2
  · exact ⟨h.1, h.2.1, h.2.2⟩

theorem changeOpStatusCore_track (s : Session) (tid : Nat) (changedBy : String)
    (uid : Nat) (cm : Message) (iu : Int)
    (h : s.initUser = iu ∧ JoinObs uid cm s.clients) :
    (s.changeOpStatusCore tid true changedBy).1.initUser = iu ∧
      JoinObs uid cm (s.changeOpStatusCore tid true changedBy).1.clients ∧
      (s.changeOpStatusCore tid true changedBy).2.2 = none :=
  foldl_invariant (Session.opStep tid true changedBy)
    (fun acc => acc.1.initUser = iu ∧ JoinObs uid cm acc.1.clients ∧ acc.2.2 = none)
    (fun acc c hac => opStep_true_track tid changedBy uid cm iu acc c hac)
    s.clients (s, [], none) ⟨h.1, h.2, rfl⟩

theorem changeOpStatus_true_track (s : Session) (tid : Nat) (changedBy : String)
    (uid : Nat) (cm : Message) (iu : Int) (hinit : (uid : Int) ≠ iu)
    (h : s.initUser = iu ∧ JoinObs uid cm s.clients) :
    (s.changeOpStatus tid true changedBy).initUser = iu ∧
      JoinObs uid cm (s.changeOpStatus tid true changedBy).clients := by
  have hc := changeOpStatusCore_track s tid changedBy uid cm iu h
  have hh := addToHistory_track (s.changeOpStatusCore tid true changedBy).1
    ⟨0, .sessionOwner (s.changeOpStatusCore tid true changedBy).2.1, 0⟩ uid cm iu hinit
    ⟨hc.1, hc.2.1⟩
  dsimp only [Session.changeOpStatus]
  rw [hc.2.2]
  exact hh

theorem changeTrustedStatus_track (s : Session) (tid : Nat) (tr : Bool) (changedBy : String)
    (uid : Nat) (cm : Message) (iu : Int) (hinit : (uid : Int) ≠ iu)
    (h : s.initUser = iu ∧ JoinObs uid cm s.clients) :
    (s.changeTrustedStatus tid tr changedBy).initUser = iu ∧
      JoinObs uid cm (s.changeTrustedStatus tid tr changedBy).clients := by
  dsimp only [Session.changeTrustedStatus]
  refine addToHistory_track _ _ uid cm iu hinit ?_
  refine foldl_invariant _
    (fun acc : Session × List Nat => acc.1.initUser = iu ∧ JoinObs uid cm acc.1.clients)
    (fun acc c hac => ?_) s.clients (s, []) ⟨h.1, h.2⟩
  dsimp only
  split
  · dsimp only
    refine ⟨?_, ?_⟩
    · split
      · exact (messageAll_initUser _ _ _).trans hac.1
      · exact (messageAll_initUser _ _ _).trans hac.1
    · split
      · exact JO_messageAll _ _ _ uid cm (JO_setTrustedOf _ _ _ uid cm hac.2)
      · exact JO_messageAll _ _ _ uid cm (JO_setTrustedOf _ _ _ uid cm hac.2)
  · exact ⟨hac.1, hac.2⟩

theorem ensureOperatorExists_track (s : Session) (uid : Nat) (cm : Message) (iu : Int)
    (hinit : (uid : Int) ≠ iu) (h : s.initUser = iu ∧ JoinObs uid cm s.clients) :
    s.ensureOperatorExists.initUser = iu ∧ JoinObs uid cm s.ensureOperatorExists.clients := by
  unfold Session.ensureOperatorExists
  split
  · exact h
  · split
    · split
      next first heq =>
        have hc := changeOpStatusCore_track s first.id "the server" uid cm iu h
        exact addToHistory_track _ _ uid cm iu hinit ⟨hc.1, hc.2.1⟩
      next heq => exact h
    · exact h

theorem joinUser_false_eq (s : Session) (user : Client) :
    s.joinUser user false =
      { (joinStep6 s user).ensureOperatorExists.sendUpdatedAnnouncementList.sendUpdatedBanlist.sendUpdatedMuteList with
        history :=
          (joinStep6 s user).ensureOperatorExists.sendUpdatedAnnouncementList.sendUpdatedBanlist.sendUpdatedMuteList.history.setIdForName
            user.id user.username } := rfl

theorem joinUser_fresh_catchup (s : Session) (user : Client)
    (hfresh : ∀ c0 ∈ s.clients, c0.id ≠ user.id)
    (hinit : (user.id : Int) ≠ s.initUser) :
    JoinObs user.id
      (Message.server (ServerReply.catchup (s.history.lastIndex - s.history.firstIndex)))
      (s.joinUser user false).clients := by
  have h2 : (joinStep2 s user).initUser = s.initUser ∧
      JoinObs user.id
        (Message.server (ServerReply.catchup (s.history.lastIndex - s.history.firstIndex)))
        (joinStep2 s user).clients := by
    refine ⟨rfl, ?_⟩
    have hc2 : (joinStep2 s user).clients =
        s.clients ++ [({ user with historyPosition := -1 } : Client).pushSent
          (Message.server (ServerReply.catchup
            (s.history.lastIndex - s.history.firstIndex)))] :=
      updateFirstClient_append_fresh s.clients { user with historyPosition := -1 } user.id
        _ rfl hfresh
    rw [hc2]
    exact ⟨_, List.mem_append.mpr (Or.inr (List.mem_cons_self _ _)), rfl, rfl,
      List.mem_append.mpr (Or.inr (List.mem_cons_self _ _))⟩
  have h3 : (joinStep3 s user).initUser = s.initUser ∧
      JoinObs user.id
        (Message.server (ServerReply.catchup (s.history.lastIndex - s.history.firstIndex)))
        (joinStep3 s user).clients := by
    unfold joinStep3
    split
    · exact ⟨h2.1, JO_sendDirectTo _ _ _ _ _ h2.2⟩
    · exact h2
  have h4 := addToHistory_track (joinStep3 s user) user.joinMessage user.id
    (Message.server (ServerReply.catchup (s.history.lastIndex - s.history.firstIndex)))
    s.initUser hinit h3
  have h5 : (joinStep5 s user).initUser = s.initUser ∧
      JoinObs user.id
        (Message.server (ServerReply.catchup (s.history.lastIndex - s.history.firstIndex)))
        (joinStep5 s user).clients := by
    unfold joinStep5
    split
    · exact changeOpStatus_true_track (joinStep4 s user) user.id "the server" user.id
        (Message.server (ServerReply.catchup (s.history.lastIndex - s.history.firstIndex)))
        s.initUser hinit h4
    · exact h4
  have h6 : (joinStep6 s user).initUser = s.initUser ∧
      JoinObs user.id
        (Message.server (ServerReply.catchup (s.history.lastIndex - s.history.firstIndex)))
        (joinStep6 s user).clients := by
    unfold joinStep6
    split
    · exact changeTrustedStatus_track (joinStep5 s user) user.id true "the server" user.id
        (Message.server (ServerReply.catchup (s.history.lastIndex - s.history.firstIndex)))
        s.initUser hinit h5
    · exact h5
  have h7 := ensureOperatorExists_track (joinStep6 s user) user.id
    (Message.server (ServerReply.catchup (s.history.lastIndex - s.history.firstIndex)))
    s.initUser hinit h6
  rw [joinUser_false_eq s user]
  exact JO_sendUpdatedMuteList _ user.id _
    (JO_sendUpdatedBanlist _ user.id _
      (JO_sendUpdatedAnnouncementList _ user.id _ h7.2))

/-- C6: `Client::sendNextHistoryBatch` is a no-op when the client has no
session, when its upload queue is still uploading, and when the session is
not Running; otherwise it fetches the batch after the client's cursor via
`getBatch`, advances the cursor to the returned position and enqueues
exactly that batch (the history itself is unchanged — `cleanupBatches`
only releases retained storage); and a freshly joined non-host client
starts with its cursor at -1 after being sent a catch-up message counting
`lastIndex - firstIndex`. -/
theorem sendNextHistoryBatch_spec (s : Session) (cid : Nat) (user : Client) :
    sendNextHistoryBatchOpt none cid = none
    ∧ (∀ c, s.getClientById cid = some c →
        c.uploading = true ∨ s.state ≠ SState.Running →
        s.sendNextHistoryBatchFor cid = s)
    ∧ (∀ c, s.getClientById cid = some c → c.uploading = false →
        s.state = SState.Running →
        (s.sendNextHistoryBatchFor cid).history = s.history ∧
        (s.sendNextHistoryBatchFor cid).clients =
          Session.updateFirstClient s.clients cid (fun c2 =>
            { c2.pushSentBatch (s.history.getBatch c.historyPosition).1 with
              historyPosition := (s.history.getBatch c.historyPosition).2 }))
    ∧ ((∀ c0 ∈ s.clients, c0.id ≠ user.id) → (user.id : Int) ≠ s.initUser →
        ∃ c ∈ (s.joinUser user false).clients, c.id = user.id ∧ c.historyPosition = -1 ∧
          Message.server (ServerReply.catchup
            (s.history.lastIndex - s.history.firstIndex)) ∈ c.sent) := by
  refine ⟨rfl, ?_, ?_, ?_⟩
  · intro c hc hcase
    unfold Session.sendNextHistoryBatchFor
    rw [hc]
    rcases hcase with hu | hs
    · simp [hu]
    · simp [hs]
  · intro c hc hu hs
    unfold Session.sendNextHistoryBatchFor
    rw [hc]
    dsimp only
    rw [if_neg (by simp [hu, hs])]
    exact ⟨rfl, rfl⟩
  · intro hfresh hinit
    exact joinUser_fresh_catchup s user hfresh hinit

/-- Witness for C6 at concrete inputs: the uploading client is skipped,
an idle operator in a running session gets the batch at its cursor with
the cursor advanced, and a fresh non-host joiner holds a catch-up message
counting the retained history with its cursor still at -1. -/
theorem sendNextHistoryBatch_spec_witness :
    sessC6.sendNextHistoryBatchFor 1 = sessC6 ∧
    ((sessTwoOps.sendNextHistoryBatchFor 1).history = sessTwoOps.history ∧
      (sessTwoOps.sendNextHistoryBatchFor 1).clients =
        Session.updateFirstClient sessTwoOps.clients 1 (fun c2 =>
          { c2.pushSentBatch (sessTwoOps.history.getBatch (-1)).1 with
            historyPosition := (sessTwoOps.history.getBatch (-1)).2 })) ∧
    (∃ c ∈ (sessTwoOps.joinUser (mkClient 3 "c") false).clients, c.id = 3 ∧
      c.historyPosition = -1 ∧
      Message.server (ServerReply.catchup
        (sessTwoOps.history.lastIndex - sessTwoOps.history.firstIndex)) ∈ c.sent) :=
  ⟨(sendNextHistoryBatch_spec sessC6 1 upClient).2.1 upClient (by decide)
      (Or.inl (by decide)),
   (sendNextHistoryBatch_spec sessTwoOps 1 upClient).2.2.1 (opClient 1 "a") (by decide)
      (by decide) (by decide),
   (sendNextHistoryBatch_spec sessTwoOps 1 (mkClient 3 "c")).2.2.2 (by decide) (by decide)⟩

/-! Machinery for the auto-reset threshold claim. -/

theorem initEcho_history (t : Session) (m : Message) :
    (t.initEcho m).history = t.history := by
  unfold Session.initEcho
  split
  · split
    next origin heq =>
      split
      · rfl
      · rfl
    next heq => rfl
  · rfl

theorem initEcho_autoResetRequestStatus (t : Session) (m : Message) :
    (t.initEcho m).autoResetRequestStatus = t.autoResetRequestStatus := by
  unfold Session.initEcho
  split
  · split
    next origin heq =>
      split
      · rfl
      · rfl
    next heq => rfl
  · rfl

theorem clientsFlags_eq_of_frame {s1 s2 : Session} (h : s1.frame = s2.frame) :
    s1.clients.map Client.flagsOf = s2.clients.map Client.flagsOf :=
  congrArg (fun t => t.2.2.2.2.2.2.2.2) h

/-- C4: inside `addToHistory`, when a successful append leaves the
effective auto-reset threshold positive, the request status `NotSent` and
the history byte size above the threshold, the size-limit warning goes
directly to every connected client, the (advisory) reset query goes to
exactly the clients flagged operator, and the status becomes `Queried`;
with any other request status the size check changes nothing. Every
successful append routes through this check: `addToHistory` is then the
status-update check after the auto-reset check on the post-append state,
whose history is the append result, whose request status is the
pre-append one and whose client flags are unchanged. -/
theorem autoreset_threshold_crossing (s : Session) (m : Message) (h1 : History) :
    (s.history.effectiveAutoResetThreshold > 0 ∧
        s.autoResetRequestStatus = AutoResetState.NotSent ∧
        s.history.sizeInBytes > s.history.effectiveAutoResetThreshold →
      s.autoResetCheck =
        { s with
          clients := (s.clients.map (fun c => c.pushSent (Message.server
              (ServerReply.sizeLimitWarning s.history.sizeInBytes
                s.history.effectiveAutoResetThreshold)))).map
            (fun c => if c.isOperator then c.pushSent (Message.server
              (ServerReply.resetRequest s.history.sizeLimit true)) else c)
          autoResetRequestStatus := AutoResetState.Queried })
    ∧ (s.autoResetRequestStatus ≠ AutoResetState.NotSent → s.autoResetCheck = s)
    ∧ (s.state ≠ SState.Shutdown → s.history.addMessage m = some h1 →
        s.addToHistory m = ((postAppend s m h1).autoResetCheck).statusUpdateCheck ∧
        (postAppend s m h1).history = h1 ∧
        (postAppend s m h1).autoResetRequestStatus = s.autoResetRequestStatus ∧
        (postAppend s m h1).clients.map Client.flagsOf =
          s.clients.map Client.flagsOf) := by
  refine ⟨?_, ?_, ?_⟩
  · intro hcond
    unfold Session.autoResetCheck
    rw [if_pos hcond]
    rfl
  · intro hne
    unfold Session.autoResetCheck
    rw [if_neg (fun hcond => hne hcond.2.1)]
  · intro hshut happ
    refine ⟨?_, ?_, ?_, ?_⟩
    · unfold Session.addToHistory
      rw [if_neg hshut, happ]
      rfl
    · exact initEcho_history { s with history := h1 } m
    · exact initEcho_autoResetRequestStatus { s with history := h1 } m
    · have hf := clientsFlags_eq_of_frame (frame_initEcho { s with history := h1 } m)
      exact hf

/-- Witness for C4 at concrete inputs: a session that crossed the
threshold broadcasts the warning, queries the operator and moves to
Queried; an already-queried session is unchanged by the check; a concrete
successful append routes through the check on the appended history with
the pre-append status. -/
theorem autoreset_threshold_crossing_witness :
    sessC4.autoResetCheck =
      { sessC4 with
        clients := (sessC4.clients.map (fun c => c.pushSent (Message.server
            (ServerReply.sizeLimitWarning sessC4.history.sizeInBytes
              sessC4.history.effectiveAutoResetThreshold)))).map
          (fun c => if c.isOperator then c.pushSent (Message.server
            (ServerReply.resetRequest sessC4.history.sizeLimit true)) else c)
        autoResetRequestStatus := AutoResetState.Queried } ∧
    sessTwoOps.autoResetCheck = sessTwoOps ∧
    (sess0.addToHistory heldMsgC1 =
        ((postAppend sess0 heldMsgC1 h1C4).autoResetCheck).statusUpdateCheck ∧
      (postAppend sess0 heldMsgC1 h1C4).history = h1C4 ∧
      (postAppend sess0 heldMsgC1 h1C4).autoResetRequestStatus =
        sess0.autoResetRequestStatus ∧
      (postAppend sess0 heldMsgC1 h1C4).clients.map Client.flagsOf =
        sess0.clients.map Client.flagsOf) :=
  ⟨(autoreset_threshold_crossing sessC4 heldMsgC1 h1C4).1 (by decide),
   (autoreset_threshold_crossing sessTwoOps heldMsgC1 h1C4).2.1 (by decide),
   (autoreset_threshold_crossing sess0 heldMsgC1 h1C4).2.2 (by decide) (by decide)⟩

/-- C7: in session mode the context id of a message from a sender other
than the current init user is rewritten to the sender's own id before any
side effect or storage — handling an arrived message is identical to
handling the already-rewritten message — and the rewritten message carries
the sender's id; in particular a drawing command from such a sender in a
running session is appended to the history stamped with the sender's id
regardless of the arrived context id, while a message from the current
init user is stored with whatever context id it arrived with. -/
theorem contextId_rewrite (s : Session) (cid : Nat) (msg : Message)
    (ctx t len : Nat) (b1 b2 : Bool) :
    (s.initUser ≠ (cid : Int) →
      s.handleSessionMessage cid msg = s.handleSessionMessage cid (msg.setContextId cid))
    ∧ (∀ m : Message, (m.setContextId cid).contextId = cid)
    ∧ ((s.getClientById cid).isSome = true → s.initUser ≠ (cid : Int) →
        s.state = SState.Running →
        s.handleSessionMessage cid ⟨ctx, .other t b1 b2, len⟩ =
          s.addToHistory ⟨cid, .other t b1 b2, len⟩)
    ∧ ((s.getClientById cid).isSome = true → s.initUser = (cid : Int) →
        s.handleSessionMessage cid ⟨ctx, .other t b1 b2, len⟩ =
          s.storeSessionMessage cid ⟨ctx, .other t b1 b2, len⟩) := by
  refine ⟨?_, fun m => rfl, ?_, ?_⟩
  · intro hinit
    unfold Session.handleSessionMessage
    cases hcl : s.getClientById cid with
    | none => rfl
    | some cl =>
      obtain ⟨ctx0, body0, len0⟩ := msg
      cases body0 <;>
        first
          | rfl
          | (simp only [if_pos hinit]; rfl)
  · intro hsome hinit hs
    unfold Session.handleSessionMessage
    cases hcl : s.getClientById cid with
    | none =>
      rw [hcl] at hsome
      simp at hsome
    | some cl =>
      dsimp only
      rw [if_pos hinit]
      dsimp only [Message.setContextId]
      unfold Session.storeSessionMessage
      rw [if_neg hinit, if_neg (fun h => h hs)]
  · intro hsome hinit
    unfold Session.handleSessionMessage
    cases hcl : s.getClientById cid with
    | none =>
      rw [hcl] at hsome
      simp at hsome
    | some cl =>
      dsimp only
      rw [if_neg (fun h => h hinit)]

/-- Witness for C7 at concrete inputs: a guest's drawing command arriving
with a forged context id 9 is handled exactly like the rewritten message
and lands in the history stamped with the sender id 1; the resetter (init
user) of a mid-reset session gets its message stored with the arrived
context id untouched. -/
theorem contextId_rewrite_witness :
    (sessTwoOps.handleSessionMessage 1 ⟨9, .other 64 true true, 5⟩ =
      sessTwoOps.handleSessionMessage 1
        ((⟨9, .other 64 true true, 5⟩ : Message).setContextId 1)) ∧
    ((⟨9, .other 64 true true, 5⟩ : Message).setContextId 1).contextId = 1 ∧
    (sessTwoOps.handleSessionMessage 1 ⟨9, .other 64 true true, 5⟩ =
      sessTwoOps.addToHistory ⟨1, .other 64 true true, 5⟩) ∧
    (sessResetC1.handleSessionMessage 1 ⟨9, .other 64 true true, 5⟩ =
      sessResetC1.storeSessionMessage 1 ⟨9, .other 64 true true, 5⟩) :=
  ⟨(contextId_rewrite sessTwoOps 1 ⟨9, .other 64 true true, 5⟩ 9 64 5 true true).1
      (by decide),
   (contextId_rewrite sessTwoOps 1 ⟨9, .other 64 true true, 5⟩ 9 64 5 true true).2.1
      ⟨9, .other 64 true true, 5⟩,
   (contextId_rewrite sessTwoOps 1 ⟨9, .other 64 true true, 5⟩ 9 64 5 true true).2.2.1
      (by decide) (by decide) (by decide),
   (contextId_rewrite sessResetC1 1 ⟨9, .other 64 true true, 5⟩ 9 64 5 true true).2.2.2
      (by decide) (by decide)⟩

/-! Machinery for the operator-invariant claim. -/

theorem existsOp_of_flags {cs1 cs2 : List Client}
    (hf : cs1.map Client.flagsOf = cs2.map Client.flagsOf)
    (h : ∃ c ∈ cs2, c.isOperator = true) : ∃ c ∈ cs1, c.isOperator = true := by
  obtain ⟨c, hm, hop⟩ := h
  have hmem : c.flagsOf ∈ cs1.map Client.flagsOf := by
    rw [hf]
    exact List.mem_map_of_mem _ hm
  obtain ⟨c1, hm1, hf1⟩ := List.mem_map.mp hmem
  refine ⟨c1, hm1, ?_⟩
  have h2 : c1.opFlag = c.opFlag := congrArg (fun f => f.2.1) hf1
  have h3 : c1.isModerator = c.isModerator := congrArg (fun f => f.2.2.1) hf1
  show (c1.opFlag || c1.isModerator) = true
  rw [h2, h3]
  exact hop

theorem isAuthOps_false_iff (h : History) :
    h.isAuthenticatedOperators = false ↔ h.authOps.isEmpty = true := by
  unfold History.isAuthenticatedOperators
  cases hE : h.authOps.isEmpty <;> simp [hE]

theorem OperatorInvariant_of_opState {s1 s2 : Session}
    (hw : s1.history.opwordHash = s2.history.opwordHash)
    (ha : s1.history.authOps = s2.history.authOps)
    (hf : s1.clients.map Client.flagsOf = s2.clients.map Client.flagsOf)
    (h : OperatorInvariant s2) : OperatorInvariant s1 := by
  intro hopw hauth
  have hauth2 : s2.history.isAuthenticatedOperators = false := by
    rw [isAuthOps_false_iff] at hauth ⊢
    rw [← ha]
    exact hauth
  rcases h (hw.symm.trans hopw) hauth2 with hnil | hex
  · left
    have h2 : s1.clients.map Client.flagsOf = [] := by
      rw [hf, hnil]
      rfl
    exact List.map_eq_nil_iff.mp h2
  · right
    exact existsOp_of_flags hf hex

theorem OperatorInvariant_of_sideFlags {s1 s2 : Session} (h : s1.sideFlags = s2.sideFlags)
    (hinv : OperatorInvariant s2) : OperatorInvariant s1 :=
  OperatorInvariant_of_opState
    (congrArg (fun t => t.1.2.2.2.2.2.2.2.2.2.1) h)
    (congrArg (fun t => t.1.2.2.2.2.2.2.2.2.2.2.1) h)
    (congrArg (fun t => t.2) h)
    hinv

theorem existsOp_map (g : Client → Client) (cs : List Client)
    (hg : ∀ c, c.isOperator = true → (g c).isOperator = true)
    (h : ∃ c ∈ cs, c.isOperator = true) : ∃ c ∈ cs.map g, c.isOperator = true := by
  obtain ⟨c, hm, hop⟩ := h
  exact ⟨g c, List.mem_map_of_mem g hm, hg c hop⟩

theorem existsOp_messageAll (t : Session) (x : String) (a : Bool)
    (h : ∃ c ∈ t.clients, c.isOperator = true) :
    ∃ c ∈ (t.messageAll x a).clients, c.isOperator = true := by
  unfold Session.messageAll
  split
  · exact h
  · exact existsOp_map _ t.clients (fun c hc => hc) h

theorem existsOp_setRaw_true (t : Session) (i : Nat)
    (h : ∃ c ∈ t.clients, c.isOperator = true) :
    ∃ c ∈ (t.setRawOperatorOf i true).clients, c.isOperator = true := by
  refine existsOp_map _ t.clients (fun c hc => ?_) h
  by_cases hci : c.id = i
  · rw [if_pos hci]
    rfl
  · rw [if_neg hci]
    exact hc

theorem messageAll_history (t : Session) (x : String) (a : Bool) :
    (t.messageAll x a).history = t.history := by
  unfold Session.messageAll Session.directToAll
  split <;> rfl

theorem messageAll_clients_nil (t : Session) (x : String) (a : Bool)
    (h : t.clients = []) : (t.messageAll x a).clients = [] := by
  unfold Session.messageAll Session.directToAll
  split
  · exact h
  · exact (congrArg (List.map _) h).trans rfl

theorem setAuthOp_opword (h : History) (n : String) (op : Bool) :
    (h.setAuthenticatedOperator n op).opwordHash = h.opwordHash := by
  unfold History.setAuthenticatedOperator
  split
  · split <;> rfl
  · rfl

theorem setAuthOp_true_isEmpty (h : History) (n : String)
    (he : (h.setAuthenticatedOperator n true).authOps.isEmpty = true) :
    h.authOps.isEmpty = true := by
  unfold History.setAuthenticatedOperator at he
  rw [if_pos rfl] at he
  by_cases hc : h.authOps.contains n = true
  · rw [if_pos hc] at he
    exact he
  · rw [if_neg hc] at he
    simp at he

theorem opStep_true_inv (tid : Nat) (cb : String)
    (acc : Session × List Nat × Option Nat) (c : Client) :
    (Session.opStep tid true cb acc c).1.history.opwordHash = acc.1.history.opwordHash
    ∧ ((Session.opStep tid true cb acc c).1.history.authOps.isEmpty = true →
        acc.1.history.authOps.isEmpty = true)
    ∧ (acc.1.clients = [] → (Session.opStep tid true cb acc c).1.clients = [])
    ∧ ((∃ w ∈ acc.1.clients, w.isOperator = true) →
        ∃ w ∈ (Session.opStep tid true cb acc c).1.clients, w.isOperator = true) := by
  dsimp only [Session.opStep]
  split
  · dsimp only
    refine ⟨?_, ?_, ?_, ?_⟩
    · split
      · exact (setAuthOp_opword _ _ _).trans
          (congrArg History.opwordHash (messageAll_history _ _ _))
      · exact congrArg History.opwordHash (messageAll_history _ _ _)
    · split
      · intro he
        have h2 := setAuthOp_true_isEmpty _ _ he
        rw [messageAll_history] at h2
        exact h2
      · intro he
        rw [messageAll_history] at he
        exact he
    · intro he
      split
      · exact messageAll_clients_nil _ _ _ ((congrArg (List.map _) he).trans rfl)
      · exact messageAll_clients_nil _ _ _ ((congrArg (List.map _) he).trans rfl)
    · intro hex
      split
      · exact existsOp_messageAll _ _ _ (existsOp_setRaw_true _ _ hex)
      · exact existsOp_messageAll _ _ _ (existsOp_setRaw_true _ _ hex)
  · exact ⟨rfl, fun he => he, fun he => he, fun hx => hx⟩

theorem core_true_kick_none (s : Session) (tid : Nat) (cb : String) :
    (s.changeOpStatusCore tid true cb).2.2 = none := by
  refine foldl_invariant (Session.opStep tid true cb) (fun acc => acc.2.2 = none)
    (fun acc c hk => ?_) s.clients (s, [], none) rfl
  dsimp only [Session.opStep]
  split
  · dsimp only
    exact hk
  · exact hk

theorem changeOpStatus_true_inv (s : Session) (tid : Nat) (cb : String)
    (h : OperatorInvariant s) : OperatorInvariant (s.changeOpStatus tid true cb) := by
  have hk := core_true_kick_none s tid cb
  have hP := foldl_invariant (Session.opStep tid true cb)
    (fun acc => acc.1.history.opwordHash = s.history.opwordHash
      ∧ (acc.1.history.authOps.isEmpty = true → s.history.authOps.isEmpty = true)
      ∧ (s.clients = [] → acc.1.clients = [])
      ∧ ((∃ w ∈ s.clients, w.isOperator = true) → ∃ w ∈ acc.1.clients, w.isOperator = true))
    (fun acc c hacc => ⟨(opStep_true_inv tid cb acc c).1.trans hacc.1,
      fun he => hacc.2.1 ((opStep_true_inv tid cb acc c).2.1 he),
      fun hnil => (opStep_true_inv tid cb acc c).2.2.1 (hacc.2.2.1 hnil),
      fun hex => (opStep_true_inv tid cb acc c).2.2.2 (hacc.2.2.2 hex)⟩)
    s.clients (s, [], none) ⟨rfl, fun he => he, fun hnil => hnil, fun hex => hex⟩
  dsimp only [Session.changeOpStatus]
  rw [hk]
  dsimp only
  intro hopw hauth
  have hsf := sideFlags_eq_of_frame (frame_addToHistory (s.changeOpStatusCore tid true cb).1
    ⟨0, .sessionOwner (s.changeOpStatusCore tid true cb).2.1, 0⟩)
  have hw : ((s.changeOpStatusCore tid true cb).1.addToHistory
      ⟨0, .sessionOwner (s.changeOpStatusCore tid true cb).2.1, 0⟩).history.opwordHash =
      (s.changeOpStatusCore tid true cb).1.history.opwordHash :=
    congrArg (fun t => t.1.2.2.2.2.2.2.2.2.2.1) hsf
  have ha : ((s.changeOpStatusCore tid true cb).1.addToHistory
      ⟨0, .sessionOwner (s.changeOpStatusCore tid true cb).2.1, 0⟩).history.authOps =
      (s.changeOpStatusCore tid true cb).1.history.authOps :=
    congrArg (fun t => t.1.2.2.2.2.2.2.2.2.2.2.1) hsf
  have hf : ((s.changeOpStatusCore tid true cb).1.addToHistory
      ⟨0, .sessionOwner (s.changeOpStatusCore tid true cb).2.1, 0⟩).clients.map
        Client.flagsOf =
      (s.changeOpStatusCore tid true cb).1.clients.map Client.flagsOf :=
    congrArg (fun t => t.2) hsf
  have hopw2 : s.history.opwordHash = "" := hP.1.symm.trans (hw.symm.trans hopw)
  have hauth2 : s.history.isAuthenticatedOperators = false := by
    rw [isAuthOps_false_iff]
    have he1 := (isAuthOps_false_iff _).mp hauth
    rw [ha] at he1
    exact hP.2.1 he1
  rcases h hopw2 hauth2 with hnil | hex
  · left
    have h1 : (s.changeOpStatusCore tid true cb).1.clients = [] := hP.2.2.1 hnil
    have h2 : (((s.changeOpStatusCore tid true cb).1.addToHistory
        ⟨0, .sessionOwner (s.changeOpStatusCore tid true cb).2.1, 0⟩)).clients.map
          Client.flagsOf = [] := by
      rw [hf, h1]
      rfl
    exact List.map_eq_nil_iff.mp h2
  · right
    exact existsOp_of_flags hf (hP.2.2.2 hex)

theorem changeOpStatusCore_existsOp (t : Session) (first : Client) (rest : List Client)
    (cb : String) (hcons : t.clients = first :: rest) (hop : ¬ first.isOperator = true) :
    ∃ c ∈ (t.changeOpStatusCore first.id true cb).1.clients, c.isOperator = true := by
  have hstep1 : ∃ c ∈ (Session.opStep first.id true cb (t, [], none) first).1.clients,
      c.isOperator = true := by
    dsimp only [Session.opStep]
    rw [if_pos ⟨rfl, hop⟩]
    dsimp only
    have hbase : ∃ c ∈ (t.setRawOperatorOf first.id true).clients, c.isOperator = true := by
      refine ⟨_, List.mem_map_of_mem
        (fun c => if c.id = first.id then { c with opFlag := true } else c)
        (show first ∈ t.clients from by rw [hcons]; exact List.mem_cons_self first rest), ?_⟩
      simp [Client.isOperator]
    split
    · exact existsOp_messageAll _ _ _ hbase
    · exact existsOp_messageAll _ _ _ hbase
  have heq : t.changeOpStatusCore first.id true cb =
      rest.foldl (Session.opStep first.id true cb)
        (Session.opStep first.id true cb (t, [], none) first) := by
    dsimp only [Session.changeOpStatusCore]
    rw [hcons]
    rfl
  rw [heq]
  exact foldl_invariant _ (fun acc => ∃ c ∈ acc.1.clients, c.isOperator = true)
    (fun acc c hacc => (opStep_true_inv first.id cb acc c).2.2.2 hacc) rest _ hstep1

theorem ensureOperatorExists_invariant (t : Session) :
    OperatorInvariant t.ensureOperatorExists := by
  unfold Session.ensureOperatorExists
  split
  next hc =>
    intro hopw hauth
    rcases hc with h1 | h2
    · exact absurd hopw h1
    · rw [hauth] at h2
      exact Bool.noConfusion h2
  next hc =>
    split
    next hc2 =>
      split
      next first heq =>
        intro hopw hauth
        refine Or.inr ?_
        obtain ⟨rest, hcons⟩ : ∃ rest, t.clients = first :: rest := by
          cases hcl : t.clients with
          | nil =>
            rw [hcl] at heq
            exact absurd heq (by simp)
          | cons a rest2 =>
            rw [hcl] at heq
            have h3 : some a = some first := heq
            exact ⟨rest2, by rw [Option.some.inj h3]⟩
        have hfop : ¬ first.isOperator = true := fun hx =>
          hc2.1 (List.any_eq_true.mpr
            ⟨first, by rw [hcons]; exact List.mem_cons_self first rest, hx⟩)
        have hex := changeOpStatusCore_existsOp t first rest "the server" hcons hfop
        have hsf := sideFlags_eq_of_frame (frame_addToHistory
          (t.changeOpStatusCore first.id true "the server").1
          ⟨0, .sessionOwner (t.changeOpStatusCore first.id true "the server").2.1, 0⟩)
        have hf : ((t.changeOpStatusCore first.id true "the server").1.addToHistory
            ⟨0, .sessionOwner (t.changeOpStatusCore first.id true "the server").2.1, 0⟩).clients.map
              Client.flagsOf =
            (t.changeOpStatusCore first.id true "the server").1.clients.map Client.flagsOf :=
          congrArg (fun x => x.2) hsf
        exact existsOp_of_flags hf hex
      next heq =>
        intro hopw hauth
        exact Or.inl (List.head?_eq_none_iff.mp heq)
    next hc2 =>
      intro hopw hauth
      by_cases hany : t.clients.any (fun c => c.isOperator) = true
      · refine Or.inr ?_
        obtain ⟨c, hm, hcop⟩ := List.any_eq_true.mp hany
        exact ⟨c, hm, hcop⟩
      · refine Or.inl ?_
        by_contra hne
        exact hc2 ⟨hany, hne⟩

theorem setClosed_if_invariant (t : Session) (b : Bool) (p : Prop) [inst : Decidable p]
    (h : OperatorInvariant t) : OperatorInvariant (if p then t.setClosed b else t) := by
  split
  · exact OperatorInvariant_of_sideFlags (sideFlags_setClosed _ _) h
  · exact h

theorem removeUser_invariant (s : Session) (uid : Nat)
    (h : OperatorInvariant s) : OperatorInvariant (s.removeUser uid) := by
  unfold Session.removeUser
  split
  · exact h
  · refine OperatorInvariant_of_sideFlags
      (sideFlags_eq_of_frame (frame_historyCacheCleanup _)) ?_
    exact setClosed_if_invariant _ _ _ (ensureOperatorExists_invariant _)

theorem storeSessionMessage_invariant (s : Session) (cid : Nat) (m : Message)
    (h : OperatorInvariant s) : OperatorInvariant (s.storeSessionMessage cid m) := by
  unfold Session.storeSessionMessage
  split
  · unfold Session.addToInitStream
    split
    · exact OperatorInvariant_of_sideFlags
        (sideFlags_eq_of_frame (frame_addToHistory _ _)) h
    · split
      · dsimp only
        split
        · split
          next resetter heq => exact removeUser_invariant _ _ h
          next heq => exact h
        · exact h
      · exact h
  · split
    · split
      · dsimp only
        refine OperatorInvariant_of_opState ?_ ?_ ?_ h
        · rfl
        · rfl
        · exact map_flagsOf_updateFirstClient
            (fun c => { c with holdqueue := c.holdqueue ++ [m] }) s.clients cid
            (fun c => rfl)
      · exact h
    · exact OperatorInvariant_of_sideFlags
        (sideFlags_eq_of_frame (frame_addToHistory _ _)) h

theorem joinUser_true_eq (s : Session) (user : Client) :
    s.joinUser user true =
      { (joinStep6h s user).ensureOperatorExists.sendUpdatedAnnouncementList.sendUpdatedBanlist.sendUpdatedMuteList with
        history :=
          (joinStep6h s user).ensureOperatorExists.sendUpdatedAnnouncementList.sendUpdatedBanlist.sendUpdatedMuteList.history.setIdForName
            user.id user.username } := rfl

theorem joinUser_invariant (s : Session) (user : Client) (host : Bool) :
    OperatorInvariant (s.joinUser user host) := by
  have htail : ∀ t : Session, OperatorInvariant
      ({ t.ensureOperatorExists.sendUpdatedAnnouncementList.sendUpdatedBanlist.sendUpdatedMuteList with
         history :=
           t.ensureOperatorExists.sendUpdatedAnnouncementList.sendUpdatedBanlist.sendUpdatedMuteList.history.setIdForName
             user.id user.username } : Session) := by
    intro t
    refine OperatorInvariant_of_sideFlags ?_ (ensureOperatorExists_invariant t)
    exact (sideFlags_eq_of_frame (frame_sendUpdatedMuteList _)).trans
      ((sideFlags_eq_of_frame (frame_sendUpdatedBanlist _)).trans
        (sideFlags_eq_of_frame (frame_sendUpdatedAnnouncementList _)))
  cases host with
  | false =>
    rw [joinUser_false_eq]
    exact htail (joinStep6 s user)
  | true =>
    rw [joinUser_true_eq]
    exact htail (joinStep6h s user)

theorem hasOpId_messageAll (t : Session) (x : String) (a : Bool) (cid : Nat)
    (h : ∃ w ∈ t.clients, w.id = cid ∧ w.isOperator = true) :
    ∃ w ∈ (t.messageAll x a).clients, w.id = cid ∧ w.isOperator = true := by
  unfold Session.messageAll Session.directToAll
  split
  · exact h
  · obtain ⟨w, hm, hid, hop⟩ := h
    exact ⟨w.pushSent _, List.mem_map_of_mem _ hm, hid, hop⟩

theorem ownershipStep_hasOpId (opIds : List Nat) (cb : String) (cid : Nat)
    (hin : opIds.contains cid = true) (acc : Session × List Nat × Option Nat) (c : Client)
    (h : ∃ w ∈ acc.1.clients, w.id = cid ∧ w.isOperator = true) :
    ∃ w ∈ (Session.ownershipStep opIds cb acc c).1.clients,
      w.id = cid ∧ w.isOperator = true := by
  dsimp only [Session.ownershipStep]
  split
  · dsimp only
    have h2 : ∃ w ∈ (acc.1.setRawOperatorOf c.id
        (opIds.contains c.id || c.isModerator)).clients,
        w.id = cid ∧ w.isOperator = true := by
      obtain ⟨w, hm, hid, hop⟩ := h
      by_cases hcw : w.id = c.id
      · refine ⟨{ w with opFlag := opIds.contains c.id || c.isModerator }, ?_, hid, ?_⟩
        · have hmem := List.mem_map_of_mem
            (fun c2 => if c2.id = c.id then
              { c2 with opFlag := opIds.contains c.id || c.isModerator } else c2) hm
          dsimp only at hmem
          rw [if_pos hcw] at hmem
          exact hmem
        · have hcid : c.id = cid := hcw.symm.trans hid
          show (opIds.contains c.id || c.isModerator || w.isModerator) = true
          rw [hcid, hin]
          rfl
      · refine ⟨w, ?_, hid, hop⟩
        have hmem := List.mem_map_of_mem
          (fun c2 => if c2.id = c.id then
            { c2 with opFlag := opIds.contains c.id || c.isModerator } else c2) hm
        dsimp only at hmem
        rw [if_neg hcw] at hmem
        exact hmem
    split
    · exact hasOpId_messageAll _ _ _ cid h2
    · exact hasOpId_messageAll _ _ _ cid h2
  · exact h

theorem updateOwnership_invariant (s : Session) (ids0 : List Nat) (cb : String) (actor : Nat)
    (hin : (ids0 ++ [actor]).contains actor = true)
    (hcl : ∃ w ∈ s.clients, w.id = actor ∧ w.isOperator = true) :
    OperatorInvariant (s.updateOwnership (ids0 ++ [actor]) cb).1 := by
  have hfold : ∃ w ∈ (s.clients.foldl (Session.ownershipStep (ids0 ++ [actor]) cb)
      (s, [], none)).1.clients, w.id = actor ∧ w.isOperator = true :=
    foldl_invariant _ (fun acc => ∃ w ∈ acc.1.clients, w.id = actor ∧ w.isOperator = true)
      (fun acc c hacc => ownershipStep_hasOpId _ cb actor hin acc c hacc)
      s.clients (s, [], none) hcl
  obtain ⟨w, hmw, hidw, hopw2⟩ := hfold
  unfold Session.updateOwnership
  dsimp only
  split
  next k heq =>
    dsimp only
    exact removeUser_invariant _ _ (fun _ _ => Or.inr ⟨w, hmw, hopw2⟩)
  next heq =>
    dsimp only
    exact fun _ _ => Or.inr ⟨w, hmw, hopw2⟩

theorem contains_append_self (xs : List Nat) (a : Nat) :
    (xs ++ [a]).contains a = true := by
  induction xs with
  | nil => simp
  | cons b bs ih => simp

theorem handle_ownerMsg_invariant (s : Session) (actor ctx len : Nat) (ids : List Nat)
    (h : OperatorInvariant s) :
    OperatorInvariant (s.handleSessionMessage actor ⟨ctx, .sessionOwner ids, len⟩) := by
  unfold Session.handleSessionMessage
  cases hcl : s.getClientById actor with
  | none => exact h
  | some cl =>
    have hclmem : cl ∈ s.clients := List.mem_of_find?_eq_some hcl
    have hclid : cl.id = actor := by
      have hp := List.find?_some hcl
      exact eq_of_beq hp
    dsimp only
    by_cases hini : s.initUser ≠ (actor : Int)
    · rw [if_pos hini]
      dsimp only [Message.setContextId]
      split
      next hguard => exact h
      next hguard =>
        have hcop : cl.isOperator = true := by
          by_cases hb : cl.isOperator = true
          · exact hb
          · exact absurd (fun hx => hb hx) hguard
        exact storeSessionMessage_invariant _ _ _
          (updateOwnership_invariant _ ids cl.username actor
            (contains_append_self ids actor) ⟨cl, hclmem, hclid, hcop⟩)
    · rw [if_neg hini]
      dsimp only
      split
      next hguard => exact h
      next hguard =>
        have hcop : cl.isOperator = true := by
          by_cases hb : cl.isOperator = true
          · exact hb
          · exact absurd (fun hx => hb hx) hguard
        exact storeSessionMessage_invariant _ _ _
          (updateOwnership_invariant _ ids cl.username actor
            (contains_append_self ids actor) ⟨cl, hclmem, hclid, hcop⟩)

theorem clientJsonApiSetOp_true_invariant (s : Session) (uid : Nat)
    (h : OperatorInvariant s) : OperatorInvariant (s.clientJsonApiSetOp uid true) := by
  unfold Session.clientJsonApiSetOp
  split
  next heq => exact h
  next c heq =>
    split
    · exact changeOpStatus_true_inv s uid "the server administrator" h
    · exact h

/-- C2 (amended): the operator invariant — with no op-password hash and no
remembered authenticated operators, the set of connected operators is
empty only when no client is connected — is preserved by every sequence
of client joins, client leaves, session-owner messages handled in session
mode, and operator grants through the administrative JSON API. (The
administrative JSON API de-op path breaks it: it delegates to
`changeOpStatus` without the `ensureOperatorExists` call that joins and
leaves perform, see the counterexample.) -/
theorem operator_invariant_amended (s : Session) (evs : List SEvent)
    (h : OperatorInvariant s) : OperatorInvariant (applyEvents s evs) := by
  induction evs generalizing s with
  | nil => exact h
  | cons e rest ih =>
    show OperatorInvariant (applyEvents (applyEvent s e) rest)
    refine ih (applyEvent s e) ?_
    cases e with
    | join user host => exact joinUser_invariant s user host
    | leave uid => exact removeUser_invariant s uid h
    | ownerMsg actor ctx ids len => exact handle_ownerMsg_invariant s actor ctx len ids h
    | apiGrantOp uid => exact clientJsonApiSetOp_true_invariant s uid h

/-- Witness for C2's amended invariant: starting from the empty running
session (which trivially satisfies the invariant), a concrete sequence of
joins, a session-owner message, a leave and a JSON-API operator grant
keeps the invariant. -/
theorem operator_invariant_amended_witness :
    OperatorInvariant (applyEvents sess0
      [SEvent.join (mkClient 1 "a") false, SEvent.join (mkClient 2 "b") false,
       SEvent.ownerMsg 1 1 [2] 3, SEvent.leave 1, SEvent.apiGrantOp 2]) :=
  operator_invariant_amended sess0
    [SEvent.join (mkClient 1 "a") false, SEvent.join (mkClient 2 "b") false,
     SEvent.ownerMsg 1 1 [2] 3, SEvent.leave 1, SEvent.apiGrantOp 2]
    (fun _ _ => Or.inl rfl)

/-- C2: counterexample to the claim as stated — a de-op through the
administrative JSON API (`Client::callJsonApi` Update with `op = false`,
which calls `changeOpStatus` directly and never `ensureOperatorExists`)
leaves a reachable state with no op-password hash, no remembered
authenticated operators, a connected client, and zero operators. -/
theorem jsonApi_deop_no_operator :
    sessJsonDeop.history.opwordHash = "" ∧
    sessJsonDeop.history.isAuthenticatedOperators = false ∧
    sessJsonDeop.clients ≠ [] ∧
    (∀ c ∈ sessJsonDeop.clients, c.isOperator = false) := by
  decide

end Drawpile
